import Mathlib

/-!
# LoRa gateway JSON messages (`lorawan/gateway/createTestValue.go`)

A shallow embedding of the message records `Stat`, `RXPK`, `TXPK`, the envelope
`Payload`, and the two hand-written encoders `datr.MarshalJSON` and
`mytime.MarshalJSON`, together with the parts of the Go standard library the
program runs through: `time.Time.Format` and `encoding/json.Marshal`.

The standard library parts follow the Go sources: `time/format.go` (`nextStdChunk`,
`appendFormat`, `appendInt`, `appendNano`), `time/time.go` (`absSec`, `absDays.split`,
`absDays.date`, `absSeconds.clock`, `absDays.weekday`, with the absolute zero instant on
March 1 of the year -292277022400), `encoding/json/scanner.go`, `indent.go` (`compact`) and `encode.go`
(`isEmptyValue` and the encoders by kind). Two leaf renderers of `encoding/json` stay
parameters (`Renderers`): the decimal text of a finite `float64` and the escaped text of a
string. Neither can fail, and no statement below depends on what they write.

Go strings and byte slices are lists of bytes; `uint` and `int` are `Nat` and `Int`.
-/

namespace Gateway

/-! ## Bytes -/

/-- Contents of a Go `string` or `[]byte`. -/
abbrev Bytes := List UInt8

/-- The bytes of a string literal of the source (UTF-8). -/
def lit (s : String) : Bytes := s.toUTF8.data.toList

/-- The byte of an ASCII character literal of the source. -/
def ch (c : Char) : UInt8 := c.toNat.toUInt8

/-- Go error values the program can meet. `nil` is `none` where an `error` is returned. -/
inductive GoError
  /-- Value of `json.UnsupportedValueError`: a NaN or infinite float. -/
  | UnsupportedValueError
  /-- Value of `json.SyntaxError`: the scanner rejected a byte or the input ended early. -/
  | SyntaxError
  /-- Value of `json.MarshalerError` wrapping the error met while calling `MarshalJSON`. -/
  | MarshalerError (inner : GoError)
  deriving DecidableEq, Repr

/-! ## `datr` (source lines 60-70) -/

/-- The Datarate value: `kind` is the tag, `value` the token. -/
structure datr where
  kind : Bytes
  value : Bytes
  deriving DecidableEq, Repr

/-- Method `(d *datr) MarshalJSON() ([]byte, error)`. -/
def datr.MarshalJSON (d : datr) : Bytes × Option GoError :=
  if d.kind = lit "uint" then
    (d.value, none)
  else
    ((lit "\"" ++ d.value) ++ lit "\"", none)

/-! ## Package `time`: calendar arithmetic -/

/-- A `time.Time` as `Format` sees it: the instant in Unix seconds and nanoseconds, and
the zone in effect at that instant (what `locabs` returns). -/
structure Time where
  /-- Seconds since 1970-01-01T00:00:00Z. -/
  unix : Int
  /-- Nanoseconds within the second. -/
  nsec : Fin 1000000000
  /-- Zone offset in seconds east of UTC. -/
  offset : Int
  /-- Zone abbreviation. -/
  name : Bytes
  deriving DecidableEq, Repr

/-- A UTC instant. -/
def Time.UTC (unix : Int) (nsec : Fin 1000000000) : Time :=
  ⟨unix, nsec, 0, lit "UTC"⟩

def secondsPerMinute : Nat := 60
def secondsPerHour : Nat := 60 * secondsPerMinute
def secondsPerDay : Nat := 24 * secondsPerHour

/-- Constant `marchThruDecember`: days from March 1 through the end of the year. -/
def marchThruDecember : Nat := 31 + 30 + 31 + 30 + 31 + 31 + 30 + 31 + 30 + 31

/-- Constant `absoluteYears`: the absolute zero instant is March 1 of the year
`-absoluteYears`. Dates before it do not compute correctly. -/
def absoluteYears : Int := 292277022400

/-- The constant `unixToInternal + internalToAbsolute`: seconds from the absolute zero
instant to the Unix epoch, `(absoluteYears * 365.2425 + marchThruDecember) * secondsPerDay`
plus the seconds from January 1 of year 1 to 1970. -/
def unixToAbsolute : Int := 62135596800 + 9223371966606163200

/-- The Unix second of the absolute zero instant. -/
def absoluteZeroUnix : Int := -unixToAbsolute

/-- Function `(t Time) absSec()` (the third result of `locabs`): seconds since the absolute
zero instant in the zone of `t`, in unsigned 64-bit arithmetic. -/
def Time.abs (t : Time) : Nat :=
  ((t.unix + t.offset + unixToAbsolute) % (2 ^ 64 : Int)).toNat

/-- Result of `absDays.split`: centuries since the absolute zero instant, years since the
start of the century, days since the start of the year. Absolute years start on March 1. -/
structure AbsSplit where
  century : Nat
  cyear : Nat
  ayday : Nat
  deriving DecidableEq, Repr

/-- Function `(days absDays) split()`. The source evaluates the two divisions by 1461 with
one 32-bit multiplication; the quotients and remainders are those written here, as its
comment states them. -/
def splitDays (days : Nat) : AbsSplit :=
  let d := 4 * days + 3
  let century := d / (36524 * 4 + 1)
  -- cd is 4 * cday + 3 for the day cday within the century
  let cd := 4 * (d % (36524 * 4 + 1) / 4) + 3
  let cyear := cd / 1461
  let ayday := cd % 1461 / 4
  ⟨century, cyear, ayday⟩

/-- Function `(ayday absYday) janFeb()`: 1 for a day in January or February, which end the
absolute year. -/
def janFeb (ayday : Nat) : Nat := if ayday ≥ marchThruDecember then 1 else 0

/-- Function `(century absCentury) leap(cyear)`: 1 if the absolute year is a leap year. -/
def absLeap (century cyear : Nat) : Nat :=
  if cyear % 4 = 0 ∧ (cyear ≠ 0 ∨ century % 4 = 0) then 1 else 0

/-- Result of `absDate`: the civil date, and `yday` the day of the year counted from one. -/
structure Date where
  year : Int
  month : Nat
  day : Nat
  yday : Nat
  deriving DecidableEq, Repr

/-- Functions `(days absDays) date()` and `yearYday()` on the days of an absolute time
(named `absDate` before the two were split): the absolute month is
`(5 * ayday + 461) / 153`, March being 3, and the day of the month the rest of that
division by 5, plus one. -/
def absDate (abs : Nat) : Date :=
  let days := abs / secondsPerDay
  let sp := splitDays days
  let jf := janFeb sp.ayday
  let amonth := (5 * sp.ayday + 461) / 153
  let mday := (5 * sp.ayday + 461) % 153 / 5 + 1
  let year : Int := ((sp.century * 100 : Nat) : Int) - absoluteYears + sp.cyear + jf
  let month := amonth - 12 * jf
  let yday := if jf = 1 then sp.ayday + (1 + 31 + 28) - 365
    else sp.ayday + (1 + 31 + 28) + absLeap sp.century sp.cyear
  ⟨year, month, mday, yday⟩

/-- Result of `absClock`. -/
structure Clock where
  hour : Nat
  min : Nat
  sec : Nat
  deriving DecidableEq, Repr

/-- Function `(abs absSeconds) clock()`: hour, minute and second within the day. -/
def absClock (abs : Nat) : Clock :=
  let sec := abs % secondsPerDay
  let hour := sec / secondsPerHour
  let sec := sec - hour * secondsPerHour
  let min := sec / secondsPerMinute
  let sec := sec - min * secondsPerMinute
  ⟨hour, min, sec⟩

/-- Function `(days absDays) weekday()` on the days of an absolute time: 0 is Sunday. March
1 of the absolute zero year was a Wednesday. -/
def absWeekday (abs : Nat) : Nat :=
  (abs / secondsPerDay + 3) % 7

/-- Table of `Month.String`. -/
def longMonthNames : List String :=
  ["January", "February", "March", "April", "May", "June", "July", "August",
   "September", "October", "November", "December"]

/-- Table of `Weekday.String`. -/
def longDayNames : List String :=
  ["Sunday", "Monday", "Tuesday", "Wednesday", "Thursday", "Friday", "Saturday"]

/-! ## Package `time`: formatting -/

/-- Decimal digits of a natural number. -/
def digits (u : Nat) : Bytes := (Nat.toDigits 10 u).map ch

/-- Function `appendInt(b, x, width)`: the decimal form of `x`, zero-padded to `width`
digits, a minus sign first when `x` is negative. -/
def appendInt (x : Int) (width : Nat) : Bytes :=
  let sign : Bytes := if x < 0 then [ch '-'] else []
  let ds := digits x.natAbs
  sign ++ List.replicate (width - ds.length) (ch '0') ++ ds

/-- Removes the trailing bytes equal to `c`. -/
def trimRight (c : UInt8) (b : Bytes) : Bytes :=
  b.rdropWhile (fun x => x == c)

/-- Function `appendNano(b, nanosec, std)`: the fractional second, `n` digits after the
separator `sep`; with `trim` (the `9` layouts) trailing zeros and then a bare separator
are removed. -/
def appendNano (nanosec : Nat) (trim : Bool) (n : Nat) (sep : UInt8) : Bytes :=
  if trim && (n = 0 || nanosec = 0) then
    []
  else
    let b := sep :: (appendInt nanosec 9).take n
    if trim then
      let b := trimRight (ch '0') b
      if b.getLast? = some sep then b.dropLast else b
    else b

/-- The layout elements (`std...` constants of package time). -/
inductive Std
  | stdLongMonth | stdMonth | stdNumMonth | stdZeroMonth
  | stdLongWeekDay | stdWeekDay
  | stdDay | stdUnderDay | stdZeroDay | stdUnderYearDay | stdZeroYearDay
  | stdHour | stdHour12 | stdZeroHour12
  | stdMinute | stdZeroMinute | stdSecond | stdZeroSecond
  | stdLongYear | stdYear
  | stdPM | stdpm
  | stdTZ
  | stdISO8601TZ | stdISO8601SecondsTZ | stdISO8601ShortTZ
  | stdISO8601ColonTZ | stdISO8601ColonSecondsTZ
  | stdNumTZ | stdNumSecondsTz | stdNumShortTZ | stdNumColonTZ | stdNumColonSecondsTZ
  | stdFracSecond0 (n : Nat) (sep : UInt8)
  | stdFracSecond9 (n : Nat) (sep : UInt8)
  deriving DecidableEq, Repr

/-- Test `layout[i:i+len(p)] == p` with the length check that guards it. -/
def startsWith (l p : Bytes) : Bool := p.isPrefixOf l

/-- Function `startsWithLowerCase`. -/
def startsWithLowerCase (l : Bytes) : Bool :=
  match l with
  | [] => false
  | c :: _ => ch 'a' ≤ c && c ≤ ch 'z'

/-- Function `isDigit(s, i)` on the rest of the layout from `i`. -/
def isDigit (l : Bytes) : Bool :=
  match l with
  | [] => false
  | c :: _ => ch '0' ≤ c && c ≤ ch '9'

/-- Table `std0x`: the elements `01` to `06`. -/
def std0x : List Std :=
  [.stdZeroMonth, .stdZeroDay, .stdZeroHour12, .stdZeroMinute, .stdZeroSecond, .stdYear]

/-- One step of the scan of `nextStdChunk`: the layout element that begins at the first
byte of `l` and the number of layout bytes it takes, or `none` when that byte is literal
text. (`_2006` is a literal underscore followed by the year: the underscore is reported
literal here and the year is found at the next byte.) -/
def stdAt (l : Bytes) : Option (Std × Nat) :=
  match l with
  | [] => none
  | c :: rest =>
    if c = ch 'J' then -- January, Jan
      if startsWith l (lit "Jan") then
        if startsWith l (lit "January") then some (.stdLongMonth, 7)
        else if !startsWithLowerCase (l.drop 3) then some (.stdMonth, 3)
        else none
      else none
    else if c = ch 'M' then -- Monday, Mon, MST
      if startsWith l (lit "Mon") then
        if startsWith l (lit "Monday") then some (.stdLongWeekDay, 6)
        else if !startsWithLowerCase (l.drop 3) then some (.stdWeekDay, 3)
        else none
      else if startsWith l (lit "MST") then some (.stdTZ, 3)
      else none
    else if c = ch '0' then -- 01, 02, 03, 04, 05, 06, 002
      match rest with
      | c1 :: rest2 =>
        if ch '1' ≤ c1 && c1 ≤ ch '6' then
          (std0x.get? (c1.toNat - (ch '1').toNat)).map (fun s => (s, 2))
        else if c1 = ch '0' && rest2.head? = some (ch '2') then some (.stdZeroYearDay, 3)
        else none
      | [] => none
    else if c = ch '1' then -- 15, 1
      if rest.head? = some (ch '5') then some (.stdHour, 2) else some (.stdNumMonth, 1)
    else if c = ch '2' then -- 2006, 2
      if startsWith l (lit "2006") then some (.stdLongYear, 4) else some (.stdDay, 1)
    else if c = ch '_' then -- _2, _2006, __2
      if rest.head? = some (ch '2') then
        if startsWith rest (lit "2006") then none
        else some (.stdUnderDay, 2)
      else if startsWith l (lit "__2") then some (.stdUnderYearDay, 3)
      else none
    else if c = ch '3' then some (.stdHour12, 1)
    else if c = ch '4' then some (.stdMinute, 1)
    else if c = ch '5' then some (.stdSecond, 1)
    else if c = ch 'P' then -- PM
      if rest.head? = some (ch 'M') then some (.stdPM, 2) else none
    else if c = ch 'p' then -- pm
      if rest.head? = some (ch 'm') then some (.stdpm, 2) else none
    else if c = ch '-' then -- -070000, -07:00:00, -0700, -07:00, -07
      if startsWith l (lit "-070000") then some (.stdNumSecondsTz, 7)
      else if startsWith l (lit "-07:00:00") then some (.stdNumColonSecondsTZ, 9)
      else if startsWith l (lit "-0700") then some (.stdNumTZ, 5)
      else if startsWith l (lit "-07:00") then some (.stdNumColonTZ, 6)
      else if startsWith l (lit "-07") then some (.stdNumShortTZ, 3)
      else none
    else if c = ch 'Z' then -- Z070000, Z07:00:00, Z0700, Z07:00, Z07
      if startsWith l (lit "Z070000") then some (.stdISO8601SecondsTZ, 7)
      else if startsWith l (lit "Z07:00:00") then some (.stdISO8601ColonSecondsTZ, 9)
      else if startsWith l (lit "Z0700") then some (.stdISO8601TZ, 5)
      else if startsWith l (lit "Z07:00") then some (.stdISO8601ColonTZ, 6)
      else if startsWith l (lit "Z07") then some (.stdISO8601ShortTZ, 3)
      else none
    else if c = ch '.' || c = ch ',' then
      -- ,000, or .000, or ,999, or .999 - repeated digits for fractional seconds.
      match rest with
      | d :: _ =>
        if d = ch '0' || d = ch '9' then
          let run := (rest.takeWhile (fun x => x == d)).length
          -- String of digits must end here - only fractional second is all digits.
          if !isDigit (rest.drop run) then
            -- stdFractionalSecond keeps twelve bits of the digit count
            if d = ch '9' then some (.stdFracSecond9 (run % 4096) c, run + 1)
            else some (.stdFracSecond0 (run % 4096) c, run + 1)
          else none
        else none
      | [] => none
    else none

/-- A piece of a layout: a literal byte or a layout element. -/
inductive Chunk
  | text (b : UInt8)
  | std (s : Std)
  deriving DecidableEq, Repr

/-- The loop of `appendFormat` over `nextStdChunk`: splits a layout into literal bytes and
layout elements, left to right. `skip` counts the bytes still covered by the element
found last. -/
def chunksFrom : Bytes → Nat → List Chunk
  | [], _ => []
  | _ :: rest, skip + 1 => chunksFrom rest skip
  | b :: rest, 0 =>
    match stdAt (b :: rest) with
    | some (s, n) => .std s :: chunksFrom rest (n - 1)
    | none => .text b :: chunksFrom rest 0

/-- The pieces of a layout. -/
def chunks (layout : Bytes) : List Chunk := chunksFrom layout 0

/-- The zone elements: `Z` for offset zero under the ISO 8601 elements, else sign, hours,
minutes and, where the element has them, a colon and seconds. -/
def appendZone (offset : Int) (iso colon short seconds : Bool) : Bytes :=
  if offset = 0 && iso then [ch 'Z']
  else
    -- Go's integer division truncates toward zero.
    let zone0 : Int := Int.tdiv offset 60
    let sign : UInt8 := if zone0 < 0 then ch '-' else ch '+'
    let zone : Int := if zone0 < 0 then -zone0 else zone0
    let absoffset : Int := if zone0 < 0 then -offset else offset
    [sign] ++ appendInt (Int.tdiv zone 60) 2
      ++ (if colon then [ch ':'] else [])
      ++ (if short then [] else appendInt (Int.tmod zone 60) 2)
      ++ (if seconds then
            (if colon then [ch ':'] else []) ++ appendInt (Int.tmod absoffset 60) 2
          else [])

/-- One case of the `switch std & stdMask` of `appendFormat`. -/
def Time.appendStd (t : Time) (s : Std) : Bytes :=
  let date := absDate t.abs
  let clock := absClock t.abs
  let hr12 : Nat := if clock.hour % 12 = 0 then 12 else clock.hour % 12
  match s with
  | .stdYear => appendInt ((if date.year < 0 then -date.year else date.year) % 100) 2
  | .stdLongYear => appendInt date.year 4
  | .stdMonth => (lit (longMonthNames.getD (date.month - 1) "")).take 3
  | .stdLongMonth => lit (longMonthNames.getD (date.month - 1) "")
  | .stdNumMonth => appendInt date.month 0
  | .stdZeroMonth => appendInt date.month 2
  | .stdWeekDay => (lit (longDayNames.getD (absWeekday t.abs) "")).take 3
  | .stdLongWeekDay => lit (longDayNames.getD (absWeekday t.abs) "")
  | .stdDay => appendInt date.day 0
  | .stdUnderDay => (if date.day < 10 then [ch ' '] else []) ++ appendInt date.day 0
  | .stdZeroDay => appendInt date.day 2
  | .stdUnderYearDay =>
    (if date.yday < 100 then
      ch ' ' :: (if date.yday < 10 then [ch ' '] else [])
     else []) ++ appendInt date.yday 0
  | .stdZeroYearDay => appendInt date.yday 3
  | .stdHour => appendInt clock.hour 2
  | .stdHour12 => appendInt hr12 0
  | .stdZeroHour12 => appendInt hr12 2
  | .stdMinute => appendInt clock.min 0
  | .stdZeroMinute => appendInt clock.min 2
  | .stdSecond => appendInt clock.sec 0
  | .stdZeroSecond => appendInt clock.sec 2
  | .stdPM => if clock.hour ≥ 12 then lit "PM" else lit "AM"
  | .stdpm => if clock.hour ≥ 12 then lit "pm" else lit "am"
  | .stdISO8601TZ => appendZone t.offset true false false false
  | .stdISO8601ColonTZ => appendZone t.offset true true false false
  | .stdISO8601SecondsTZ => appendZone t.offset true false false true
  | .stdISO8601ShortTZ => appendZone t.offset true false true false
  | .stdISO8601ColonSecondsTZ => appendZone t.offset true true false true
  | .stdNumTZ => appendZone t.offset false false false false
  | .stdNumColonTZ => appendZone t.offset false true false false
  | .stdNumSecondsTz => appendZone t.offset false false false true
  | .stdNumShortTZ => appendZone t.offset false false true false
  | .stdNumColonSecondsTZ => appendZone t.offset false true false true
  | .stdTZ =>
    if t.name ≠ [] then t.name
    else appendZone t.offset false false false false
  | .stdFracSecond0 n sep => appendNano t.nsec false n sep
  | .stdFracSecond9 n sep => appendNano t.nsec true n sep

/-- Text of one piece of the layout for the time `t`. -/
def Time.appendChunk (t : Time) : Chunk → Bytes
  | .text b => [b]
  | .std s => t.appendStd s

/-- Method `(t Time) Format(layout string) string`. -/
def Time.Format (t : Time) (layout : Bytes) : Bytes :=
  (chunks layout).flatMap t.appendChunk

/-- Constant `time.RFC3339Nano`. -/
def RFC3339Nano : Bytes := lit "2006-01-02T15:04:05.999999999Z07:00"

/-- Constant `time.RFC3339`. -/
def RFC3339 : Bytes := lit "2006-01-02T15:04:05Z07:00"

/-! ## `mytime` (source lines 72-79) -/

/-- The Time value: an instant with the layout it is written in. -/
structure mytime where
  layout : Bytes
  value : Time
  deriving DecidableEq, Repr

/-- Method `(m *mytime) MarshalJSON() ([]byte, error)`. -/
def mytime.MarshalJSON (m : mytime) : Bytes × Option GoError :=
  ((lit "\"" ++ m.value.Format m.layout) ++ lit "\"", none)

/-! ## Package `encoding/json`: the scanner run over the output of `MarshalJSON` -/

/-- The step functions of the scanner (`state...` in scanner.go). -/
inductive ScanStep
  | stateBeginValueOrEmpty | stateBeginValue | stateBeginStringOrEmpty | stateBeginString
  | stateEndValue | stateEndTop
  | stateInString | stateInStringEsc | stateInStringEscU | stateInStringEscU1
  | stateInStringEscU12 | stateInStringEscU123
  | stateNeg | state1 | state0 | stateDot | stateDot0 | stateE | stateESign | stateE0
  | stateT | stateTr | stateTru | stateF | stateFa | stateFal | stateFals
  | stateN | stateNu | stateNul
  | stateError
  deriving DecidableEq, Repr

/-- What the scanner is inside of (`parse...` constants). -/
inductive ParseState
  | parseObjectKey | parseObjectValue | parseArrayValue
  deriving DecidableEq, Repr

/-- Result codes of a scanner step (`scan...` constants), in their numeric order. -/
inductive ScanCode
  | scanContinue | scanBeginLiteral | scanBeginObject | scanObjectKey | scanObjectValue
  | scanEndObject | scanBeginArray | scanArrayValue | scanEndArray | scanSkipSpace
  | scanEnd | scanError
  deriving DecidableEq, Repr

/-- Numeric value of a result code. -/
def ScanCode.toNat : ScanCode → Nat
  | .scanContinue => 0 | .scanBeginLiteral => 1 | .scanBeginObject => 2
  | .scanObjectKey => 3 | .scanObjectValue => 4 | .scanEndObject => 5
  | .scanBeginArray => 6 | .scanArrayValue => 7 | .scanEndArray => 8
  | .scanSkipSpace => 9 | .scanEnd => 10 | .scanError => 11

/-- The scanner. `parseState` is a stack, innermost first; `err` records that an error
was set. -/
structure scanner where
  step : ScanStep
  endTop : Bool
  parseState : List ParseState
  err : Bool
  deriving DecidableEq, Repr

/-- Constant `maxNestingDepth`. -/
def maxNestingDepth : Nat := 10000

/-- Function `newScanner` followed by `reset`. -/
def newScanner : scanner := ⟨.stateBeginValue, false, [], false⟩

/-- Method `(s *scanner) error`. -/
def scanner.error (s : scanner) : scanner × ScanCode :=
  ({ s with step := .stateError, err := true }, .scanError)

/-- Method `pushParseState`. -/
def scanner.pushParseState (s : scanner) (newParseState : ParseState)
    (successState : ScanCode) : scanner × ScanCode :=
  let s := { s with parseState := newParseState :: s.parseState }
  if s.parseState.length ≤ maxNestingDepth then (s, successState) else s.error

/-- Method `popParseState`. -/
def scanner.popParseState (s : scanner) : scanner :=
  let ps := s.parseState.tail
  if ps.length = 0 then { s with parseState := ps, step := .stateEndTop, endTop := true }
  else { s with parseState := ps, step := .stateEndValue }

/-- Function `isSpace`. -/
def isSpace (c : UInt8) : Bool :=
  c ≤ ch ' ' && (c = ch ' ' || c = ch '\t' || c = ch '\r' || c = ch '\n')

/-- Test for a decimal digit byte. -/
def isDec (c : UInt8) : Bool := ch '0' ≤ c && c ≤ ch '9'

/-- Test for a hexadecimal digit byte. -/
def isHex (c : UInt8) : Bool :=
  (ch '0' ≤ c && c ≤ ch '9') || (ch 'a' ≤ c && c ≤ ch 'f') || (ch 'A' ≤ c && c ≤ ch 'F')

/-- Function `stateEndTop`. -/
def stateEndTop (s : scanner) (c : UInt8) : scanner × ScanCode :=
  if !isSpace c then (s.error.1, .scanEnd) else (s, .scanEnd)

/-- Function `stateEndValue`. -/
def stateEndValue (s : scanner) (c : UInt8) : scanner × ScanCode :=
  match s.parseState with
  | [] =>
    -- Completed top-level before the current byte.
    stateEndTop { s with step := .stateEndTop, endTop := true } c
  | ps :: below =>
    if isSpace c then ({ s with step := .stateEndValue }, .scanSkipSpace)
    else
      match ps with
      | .parseObjectKey =>
        if c = ch ':' then
          ({ s with parseState := .parseObjectValue :: below, step := .stateBeginValue },
            .scanObjectKey)
        else s.error
      | .parseObjectValue =>
        if c = ch ',' then
          ({ s with parseState := .parseObjectKey :: below, step := .stateBeginString },
            .scanObjectValue)
        else if c = ch '\x7d' then (s.popParseState, .scanEndObject)
        else s.error
      | .parseArrayValue =>
        if c = ch ',' then ({ s with step := .stateBeginValue }, .scanArrayValue)
        else if c = ch ']' then (s.popParseState, .scanEndArray)
        else s.error

/-- Function `stateBeginValue`. -/
def stateBeginValue (s : scanner) (c : UInt8) : scanner × ScanCode :=
  if isSpace c then (s, .scanSkipSpace)
  else if c = ch '\x7b' then
    { s with step := .stateBeginStringOrEmpty }.pushParseState .parseObjectKey .scanBeginObject
  else if c = ch '[' then
    { s with step := .stateBeginValueOrEmpty }.pushParseState .parseArrayValue .scanBeginArray
  else if c = ch '"' then ({ s with step := .stateInString }, .scanBeginLiteral)
  else if c = ch '-' then ({ s with step := .stateNeg }, .scanBeginLiteral)
  else if c = ch '0' then ({ s with step := .state0 }, .scanBeginLiteral)
  else if c = ch 't' then ({ s with step := .stateT }, .scanBeginLiteral)
  else if c = ch 'f' then ({ s with step := .stateF }, .scanBeginLiteral)
  else if c = ch 'n' then ({ s with step := .stateN }, .scanBeginLiteral)
  else if ch '1' ≤ c && c ≤ ch '9' then ({ s with step := .state1 }, .scanBeginLiteral)
  else s.error

/-- Function `stateBeginValueOrEmpty`. -/
def stateBeginValueOrEmpty (s : scanner) (c : UInt8) : scanner × ScanCode :=
  if isSpace c then (s, .scanSkipSpace)
  else if c = ch ']' then stateEndValue s c
  else stateBeginValue s c

/-- Function `stateBeginString`. -/
def stateBeginString (s : scanner) (c : UInt8) : scanner × ScanCode :=
  if isSpace c then (s, .scanSkipSpace)
  else if c = ch '"' then ({ s with step := .stateInString }, .scanBeginLiteral)
  else s.error

/-- Function `stateBeginStringOrEmpty`. -/
def stateBeginStringOrEmpty (s : scanner) (c : UInt8) : scanner × ScanCode :=
  if isSpace c then (s, .scanSkipSpace)
  else if c = ch '\x7d' then
    stateEndValue { s with parseState := .parseObjectValue :: s.parseState.tail } c
  else stateBeginString s c

/-- Function `stateInString`. -/
def stateInString (s : scanner) (c : UInt8) : scanner × ScanCode :=
  if c = ch '"' then ({ s with step := .stateEndValue }, .scanContinue)
  else if c = ch '\\' then ({ s with step := .stateInStringEsc }, .scanContinue)
  else if c < 0x20 then s.error
  else (s, .scanContinue)

/-- Function `stateInStringEsc`. -/
def stateInStringEsc (s : scanner) (c : UInt8) : scanner × ScanCode :=
  if c = ch 'b' || c = ch 'f' || c = ch 'n' || c = ch 'r' || c = ch 't' || c = ch '\\'
      || c = ch '/' || c = ch '"' then
    ({ s with step := .stateInString }, .scanContinue)
  else if c = ch 'u' then ({ s with step := .stateInStringEscU }, .scanContinue)
  else s.error

/-- Functions `stateInStringEscU`, `...U1`, `...U12`, `...U123`: one hexadecimal digit,
then on to `next`. -/
def stateHex (next : ScanStep) (s : scanner) (c : UInt8) : scanner × ScanCode :=
  if isHex c then ({ s with step := next }, .scanContinue) else s.error

/-- Function `state0`. -/
def state0 (s : scanner) (c : UInt8) : scanner × ScanCode :=
  if c = ch '.' then ({ s with step := .stateDot }, .scanContinue)
  else if c = ch 'e' || c = ch 'E' then ({ s with step := .stateE }, .scanContinue)
  else stateEndValue s c

/-- Function `state1`. -/
def state1 (s : scanner) (c : UInt8) : scanner × ScanCode :=
  if isDec c then ({ s with step := .state1 }, .scanContinue) else state0 s c

/-- Function `stateNeg`. -/
def stateNeg (s : scanner) (c : UInt8) : scanner × ScanCode :=
  if c = ch '0' then ({ s with step := .state0 }, .scanContinue)
  else if ch '1' ≤ c && c ≤ ch '9' then ({ s with step := .state1 }, .scanContinue)
  else s.error

/-- Function `stateDot`. -/
def stateDot (s : scanner) (c : UInt8) : scanner × ScanCode :=
  if isDec c then ({ s with step := .stateDot0 }, .scanContinue) else s.error

/-- Function `stateDot0`. -/
def stateDot0 (s : scanner) (c : UInt8) : scanner × ScanCode :=
  if isDec c then (s, .scanContinue)
  else if c = ch 'e' || c = ch 'E' then ({ s with step := .stateE }, .scanContinue)
  else stateEndValue s c

/-- Function `stateESign`. -/
def stateESign (s : scanner) (c : UInt8) : scanner × ScanCode :=
  if isDec c then ({ s with step := .stateE0 }, .scanContinue) else s.error

/-- Function `stateE`. -/
def stateE (s : scanner) (c : UInt8) : scanner × ScanCode :=
  if c = ch '+' || c = ch '-' then ({ s with step := .stateESign }, .scanContinue)
  else stateESign s c

/-- Function `stateE0`. -/
def stateE0 (s : scanner) (c : UInt8) : scanner × ScanCode :=
  if isDec c then (s, .scanContinue) else stateEndValue s c

/-- The states inside `true`, `false` and `null`: the byte `want`, then on to `next`. -/
def stateLetter (want : UInt8) (next : ScanStep) (s : scanner) (c : UInt8) :
    scanner × ScanCode :=
  if c = want then ({ s with step := next }, .scanContinue) else s.error

/-- Call `s.step(s, c)`. -/
def scanner.doStep (s : scanner) (c : UInt8) : scanner × ScanCode :=
  match s.step with
  | .stateBeginValueOrEmpty => stateBeginValueOrEmpty s c
  | .stateBeginValue => stateBeginValue s c
  | .stateBeginStringOrEmpty => stateBeginStringOrEmpty s c
  | .stateBeginString => stateBeginString s c
  | .stateEndValue => stateEndValue s c
  | .stateEndTop => stateEndTop s c
  | .stateInString => stateInString s c
  | .stateInStringEsc => stateInStringEsc s c
  | .stateInStringEscU => stateHex .stateInStringEscU1 s c
  | .stateInStringEscU1 => stateHex .stateInStringEscU12 s c
  | .stateInStringEscU12 => stateHex .stateInStringEscU123 s c
  | .stateInStringEscU123 => stateHex .stateInString s c
  | .stateNeg => stateNeg s c
  | .state1 => state1 s c
  | .state0 => state0 s c
  | .stateDot => stateDot s c
  | .stateDot0 => stateDot0 s c
  | .stateE => stateE s c
  | .stateESign => stateESign s c
  | .stateE0 => stateE0 s c
  | .stateT => stateLetter (ch 'r') .stateTr s c
  | .stateTr => stateLetter (ch 'u') .stateTru s c
  | .stateTru => stateLetter (ch 'e') .stateEndValue s c
  | .stateF => stateLetter (ch 'a') .stateFa s c
  | .stateFa => stateLetter (ch 'l') .stateFal s c
  | .stateFal => stateLetter (ch 's') .stateFals s c
  | .stateFals => stateLetter (ch 'e') .stateEndValue s c
  | .stateN => stateLetter (ch 'u') .stateNu s c
  | .stateNu => stateLetter (ch 'l') .stateNul s c
  | .stateNul => stateLetter (ch 'l') .stateEndValue s c
  | .stateError => (s, .scanError)

/-- Method `(s *scanner) eof`: whether the input may end here. -/
def scanner.eof (s : scanner) : ScanCode :=
  if s.err then .scanError
  else if s.endTop then .scanEnd
  else if (s.doStep (ch ' ')).1.endTop then .scanEnd
  else .scanError

/-- Table `hex`. -/
def hex : Bytes := lit "0123456789abcdef"

/-- The loop of `compact(dst, src, escape)` with `escape` set, as `marshalerEncoder` calls
it: the bytes written for `src`, and the scanner after the last byte read. `skip` counts
the bytes still covered by a replacement already written. The loop stops at the first
`scanError`. -/
def compactLoop : Bytes → Nat → scanner → Bytes × scanner
  | [], _, s => ([], s)
  | c :: rest, skip, s =>
    let r := s.doStep c
    if r.2 = .scanError then ([], r.1)
    else
      match skip with
      | k + 1 =>
        let out := compactLoop rest k r.1
        (out.1, out.2)
      | 0 =>
        if c = ch '<' || c = ch '>' || c = ch '&' then
          let out := compactLoop rest 0 r.1
          (lit "\\u00" ++ [hex.getD (c.toNat / 16) 0, hex.getD (c.toNat % 16) 0] ++ out.1, out.2)
        else
          -- Convert U+2028 and U+2029 (E2 80 A8 and E2 80 A9).
          match c, rest with
          | 0xE2, 0x80 :: c2 :: _ =>
            if c2 = 0xA8 || c2 = 0xA9 then
              let out := compactLoop rest 2 r.1
              (lit "\\u202" ++ [hex.getD (c2.toNat % 16) 0] ++ out.1, out.2)
            else
              let out := compactLoop rest 0 r.1
              (if r.2.toNat ≥ ScanCode.scanSkipSpace.toNat then out.1 else c :: out.1, out.2)
          | _, _ =>
            let out := compactLoop rest 0 r.1
            (if r.2.toNat ≥ ScanCode.scanSkipSpace.toNat then out.1 else c :: out.1, out.2)

/-- Function `compact(dst, src, true)`: `src` with insignificant space removed and `<`,
`>`, `&`, U+2028, U+2029 escaped, or a syntax error when `src` is not one JSON value. -/
def compact (src : Bytes) : Except GoError Bytes :=
  let r := compactLoop src 0 newScanner
  if r.2.eof = .scanError then .error .SyntaxError else .ok r.1

/-! ## Package `encoding/json`: encoders -/

/-- A `float64` by its IEEE 754 bit pattern (`math.Float64bits`), taken modulo `2 ^ 64`. -/
structure float64 where
  bits : Nat
  deriving DecidableEq, Repr

/-- Test `f == 0`, the comparison `isEmptyValue` makes: positive or negative zero. -/
def float64.isZero (f : float64) : Bool := f.bits % 2 ^ 63 = 0

/-- Test `math.IsInf(f, 0) || math.IsNaN(f)`: the exponent field is all ones. -/
def float64.isInfOrNaN (f : float64) : Bool := f.bits / 2 ^ 52 % 2 ^ 11 = 2 ^ 11 - 1

/-- The text encoding/json writes for a finite float and for a string. Both come from
the standard library (`strconv.AppendFloat` and the string escaper); neither can fail, and
the embedding leaves their output open. -/
structure Renderers where
  float : float64 → Bytes
  string : Bytes → Bytes

/-- Values of the kinds the record fields have. -/
inductive Value
  | float64 (f : float64)
  | int (i : Int)
  | uint (u : Nat)
  | string (s : Bytes)
  | bool (b : Bool)
  | datr (p : Option datr)
  | mytime (p : Option mytime)
  deriving DecidableEq, Repr

/-- Function `isEmptyValue` on the kinds of the record fields. -/
def isEmptyValue : Value → Bool
  | .float64 f => f.isZero
  | .int i => i = 0
  | .uint u => u = 0
  | .string s => s.length = 0
  | .bool b => !b
  | .datr p => p.isNone
  | .mytime p => p.isNone

/-- Function `marshalerEncoder` on a pointer whose type implements `Marshaler`; `m` is
the result of calling `MarshalJSON` on what it points to. -/
def marshalerEncoder (m : Option (Bytes × Option GoError)) : Except GoError Bytes :=
  match m with
  | none => .ok (lit "null")
  | some (b, none) =>
    match compact b with
    | .ok out => .ok out
    | .error err => .error (.MarshalerError err)
  | some (_, some err) => .error (.MarshalerError err)

/-- Function `floatEncoder`. -/
def floatEncoder (R : Renderers) (f : float64) : Except GoError Bytes :=
  if f.isInfOrNaN then .error .UnsupportedValueError else .ok (R.float f)

/-- The encoder `typeEncoder` selects for the kind of a record field, applied. -/
def Value.encode (R : Renderers) : Value → Except GoError Bytes
  | .float64 f => floatEncoder R f
  | .int i => .ok (appendInt i 0)
  | .uint u => .ok (digits u)
  | .string s => .ok (R.string s)
  | .bool b => .ok (if b then lit "true" else lit "false")
  | .datr p => marshalerEncoder (p.map datr.MarshalJSON)
  | .mytime p => marshalerEncoder (p.map mytime.MarshalJSON)

/-- A struct field as `structEncoder` meets it: the key of its tag, the `omitempty`
option, whether its value is empty, and the outcome of its encoder on its value. -/
structure field where
  name : Bytes
  omitEmpty : Bool
  empty : Bool
  encoded : Except GoError Bytes

/-- A field of a record: tag `json:"name,omitempty"`. -/
def field.of (R : Renderers) (name : String) (v : Value) : field :=
  ⟨lit name, true, isEmptyValue v, v.encode R⟩

/-- The field loop of `structEncoder.encode`: the bytes written and the value of `next`
after the last field. The first failing encoder ends the loop. -/
def encodeFields : List field → UInt8 → Except GoError (Bytes × UInt8)
  | [], next => .ok ([], next)
  | f :: fs, next =>
    if f.omitEmpty && f.empty then encodeFields fs next
    else
      match f.encoded with
      | .error err => .error err
      | .ok v =>
        match encodeFields fs (ch ',') with
        | .error err => .error err
        | .ok (rest, last) => .ok (next :: (lit "\"" ++ f.name ++ lit "\":") ++ v ++ rest, last)

/-- Function `structEncoder.encode`. -/
def structEncoder (fs : List field) : Except GoError Bytes :=
  match encodeFields fs (ch '\x7b') with
  | .error err => .error err
  | .ok (b, next) => if next = ch '\x7b' then .ok (lit "\x7b\x7d") else .ok (b ++ [ch '\x7d'])

/-- The element loop of `arrayEncoder.encode`: elements from `i` on, a comma before each
but the first. -/
def encodeElems : List (Except GoError Bytes) → Nat → Except GoError Bytes
  | [], _ => .ok []
  | e :: es, i =>
    match e with
    | .error err => .error err
    | .ok v =>
      match encodeElems es (i + 1) with
      | .error err => .error err
      | .ok rest => .ok ((if i > 0 then [ch ','] else []) ++ v ++ rest)

/-- Function `arrayEncoder.encode`. -/
def arrayEncoder (es : List (Except GoError Bytes)) : Except GoError Bytes :=
  match encodeElems es 0 with
  | .error err => .error err
  | .ok b => .ok (ch '[' :: b ++ [ch ']'])

/-- Function `sliceEncoder.encode`: a nil slice is `null`. -/
def sliceEncoder (es : Option (List (Except GoError Bytes))) : Except GoError Bytes :=
  match es with
  | none => .ok (lit "null")
  | some l => arrayEncoder l

/-- Function `ptrEncoder.encode`: a nil pointer is `null`. -/
def ptrEncoder (e : Option (Except GoError Bytes)) : Except GoError Bytes :=
  match e with
  | none => .ok (lit "null")
  | some r => r

/-! ## The records (source lines 10-58) -/

/-- Record `Stat`. A `uint` field is a `Nat`, an `int` field an `Int`, a pointer field an
`Option`. -/
structure Stat where
  Ackr : float64
  Alti : Int
  Dwnb : Nat
  Lati : float64
  Long : float64
  Rxfw : Nat
  Rxnb : Nat
  Rxok : Nat
  Time : Option mytime
  Txnb : Nat
  deriving DecidableEq, Repr

/-- Record `RXPK`. -/
structure RXPK where
  Chan : Nat
  Codr : Bytes
  Data : Bytes
  Datr : Option datr
  Freq : float64
  Lsnr : float64
  Modu : Bytes
  Rfch : Nat
  Rssi : Int
  Size : Nat
  Stat : Int
  Time : Option mytime
  Tmst : Nat
  deriving DecidableEq, Repr

/-- Record `TXPK`. -/
structure TXPK where
  Codr : Bytes
  Data : Bytes
  Datr : Option datr
  Fdev : Nat
  Freq : float64
  Imme : Bool
  Ipol : Bool
  Modu : Bytes
  Ncrc : Bool
  Powe : Nat
  Prea : Nat
  Rfch : Nat
  Size : Nat
  Time : Option mytime
  Tmst : Nat
  deriving DecidableEq, Repr

/-- The fields of `Stat`: the key of each tag and the value of the field, in declaration
order. -/
def Stat.entries (s : Stat) : List (String × Value) :=
  [ ("ackr", .float64 s.Ackr),
    ("alti", .int s.Alti),
    ("dwnb", .uint s.Dwnb),
    ("lati", .float64 s.Lati),
    ("long", .float64 s.Long),
    ("rxfw", .uint s.Rxfw),
    ("rxnb", .uint s.Rxnb),
    ("rxok", .uint s.Rxok),
    ("time", .mytime s.Time),
    ("txnb", .uint s.Txnb) ]

/-- The fields of `RXPK`: the key of each tag and the value of the field, in declaration
order. -/
def RXPK.entries (r : RXPK) : List (String × Value) :=
  [ ("chan", .uint r.Chan),
    ("codr", .string r.Codr),
    ("data", .string r.Data),
    ("datr", .datr r.Datr),
    ("freq", .float64 r.Freq),
    ("lsnr", .float64 r.Lsnr),
    ("modu", .string r.Modu),
    ("rfch", .uint r.Rfch),
    ("rssi", .int r.Rssi),
    ("size", .uint r.Size),
    ("stat", .int r.Stat),
    ("time", .mytime r.Time),
    ("tmst", .uint r.Tmst) ]

/-- The fields of `TXPK`: the key of each tag and the value of the field, in declaration
order. -/
def TXPK.entries (t : TXPK) : List (String × Value) :=
  [ ("codr", .string t.Codr),
    ("data", .string t.Data),
    ("datr", .datr t.Datr),
    ("fdev", .uint t.Fdev),
    ("freq", .float64 t.Freq),
    ("imme", .bool t.Imme),
    ("ipol", .bool t.Ipol),
    ("modu", .string t.Modu),
    ("ncrc", .bool t.Ncrc),
    ("powe", .uint t.Powe),
    ("prea", .uint t.Prea),
    ("rfch", .uint t.Rfch),
    ("size", .uint t.Size),
    ("time", .mytime t.Time),
    ("tmst", .uint t.Tmst) ]

/-- The struct fields of a record, every tag being `json:"key,omitempty"`. -/
def fieldsOf (R : Renderers) (es : List (String × Value)) : List field :=
  es.map fun e => field.of R e.1 e.2

/-- Call `json.Marshal` on a `Stat`. -/
def Stat.Marshal (R : Renderers) (s : Stat) : Except GoError Bytes :=
  structEncoder (fieldsOf R s.entries)

/-- Call `json.Marshal` on an `RXPK`. -/
def RXPK.Marshal (R : Renderers) (r : RXPK) : Except GoError Bytes :=
  structEncoder (fieldsOf R r.entries)

/-- Call `json.Marshal` on a `TXPK`. -/
def TXPK.Marshal (R : Renderers) (t : TXPK) : Except GoError Bytes :=
  structEncoder (fieldsOf R t.entries)

/-! ## The envelope (source lines 81-85) -/

/-- Envelope `Payload`. The slot `RXPK` is a pointer to a slice: `none` is the nil
pointer, `some none` a pointer to the nil slice, `some (some l)` a pointer to a slice
holding `l`. -/
structure Payload where
  RXPK : Option (Option (List Gateway.RXPK))
  Stat : Option Gateway.Stat
  TXPK : Option Gateway.TXPK
  deriving DecidableEq, Repr

/-- The fields of `Payload` with their tags, in declaration order. -/
def Payload.fields (R : Renderers) (p : Payload) : List field :=
  [ ⟨lit "rxpk", true, p.RXPK.isNone,
      ptrEncoder (p.RXPK.map fun sl => sliceEncoder (sl.map fun l => l.map (RXPK.Marshal R)))⟩,
    ⟨lit "stat", true, p.Stat.isNone, ptrEncoder (p.Stat.map (Stat.Marshal R))⟩,
    ⟨lit "txpk", true, p.TXPK.isNone, ptrEncoder (p.TXPK.map (TXPK.Marshal R))⟩ ]

/-- Call `json.Marshal` on a `Payload`, as `main` does. -/
def Payload.Marshal (R : Renderers) (p : Payload) : Except GoError Bytes :=
  structEncoder (p.fields R)

/-! ## The values built by `main` (source lines 88-198) -/

/-- Instant `2013-03-31T16:21:17.528002Z`, what `time.Parse` returns for `time1`. -/
def time1 : Time := Time.UTC 1364746877 ⟨528002000, by decide⟩

/-- Instant `2013-03-31T16:21:17.530974Z`, what `time.Parse` returns for `time2`. -/
def time2 : Time := Time.UTC 1364746877 ⟨530974000, by decide⟩

/-- Instant `2014-01-12T08:59:28Z`, what `time.Parse` returns for `time3`. -/
def time3 : Time := Time.UTC 1389517168 ⟨0, by decide⟩

/-- The layout of the `Stat` fixture. -/
def layoutGMT : Bytes := lit "2006-01-02 15:04:05 GMT"

/-- First record of the `RXPK` fixture (lines 94-108). The floats are the bit patterns of
`866.349812` and `5.1`. -/
def fixtureRXPK1 : RXPK :=
  { Time := some ⟨RFC3339Nano, time1⟩, Tmst := 3512348611, Chan := 2, Rfch := 0,
    Freq := ⟨0x408B12CC6A3BDDFD⟩, Stat := 1, Modu := lit "LORA",
    Datr := some ⟨lit "string", lit "SF7BW125"⟩, Codr := lit "4/6", Rssi := -35,
    Lsnr := ⟨0x4014666666666666⟩, Size := 32,
    Data := lit "-DS4CGaDCdG+48eJNM3Vai-zDpsR71Pn9CPA9uCON84" }

/-- Second record of the `RXPK` fixture (lines 109-121). The float is the bit pattern of
`869.1`. -/
def fixtureRXPK2 : RXPK :=
  { Chan := 9, Codr := [], Data := lit "VEVTVF9QQUNLRVRfMTIzNA==",
    Datr := some ⟨lit "uint", lit "50000"⟩, Freq := ⟨0x408B28CCCCCCCCCD⟩, Lsnr := ⟨0⟩,
    Modu := lit "FSK", Rfch := 1, Rssi := -75, Size := 16, Stat := 1,
    Time := some ⟨RFC3339Nano, time2⟩, Tmst := 3512348514 }

/-- The envelope of `rawRXPKs` (lines 92-123). -/
def fixtureRXPKs : Payload :=
  { RXPK := some (some [fixtureRXPK1, fixtureRXPK2]), Stat := none, TXPK := none }

/-- The `Stat` of `rawStat` and `rawRXPKsStat` (lines 126-137 and 171-182). The floats
are the bit patterns of `100.0`, `3.25230` and `46.24`. -/
def fixtureStat : Stat :=
  { Ackr := ⟨0x4059000000000000⟩, Alti := 145, Long := ⟨0x400A04B5DCC63F14⟩, Rxok := 2,
    Rxfw := 2, Rxnb := 2, Lati := ⟨0x40471EB851EB851F⟩, Dwnb := 2, Txnb := 2,
    Time := some ⟨layoutGMT, time3⟩ }

/-- The `TXPK` of `rawTXPK` (lines 186-197). The float is the bit pattern of
`864.123456`. -/
def fixtureTXPK : TXPK :=
  { Imme := true, Freq := ⟨0x408B00FCD67FD3F6⟩, Rfch := 0, Powe := 14, Modu := lit "LORA",
    Datr := some ⟨lit "string", lit "SF11BW125"⟩, Codr := lit "4/6", Ipol := false, Size := 32,
    Data := lit "H3P3N2i9qc4yt7rK7ldqoeCVJGBybzPY5h1Dd7P7p8v",
    Fdev := 0, Ncrc := false, Prea := 0, Time := none, Tmst := 0 }

/-! ## Vocabulary of the specification: objects, keys, absent values -/

/-- Two decimal digits. -/
def twoDigits (n : Nat) : Bytes := [UInt8.ofNat (48 + n / 10), UInt8.ofNat (48 + n % 10)]

/-- The last `w` decimal digits of `n`, most significant first, zeros kept. -/
def lastDigits : Nat → Nat → Bytes
  | 0, _ => []
  | w + 1, n => lastDigits w (n / 10) ++ [UInt8.ofNat (48 + n % 10)]

/-- How many of the last `w` decimal digits of `n` are zeros at the end. -/
def trailingZeros : Nat → Nat → Nat
  | 0, _ => 0
  | w + 1, n => if n % 10 = 0 then trailingZeros w (n / 10) + 1 else 0

/-- The fractional second as the specification words it: nothing for zero, else a point and
the nine digits of the nanoseconds without the zeros at their end. -/
def fraction (nsec : Nat) : Bytes :=
  if nsec = 0 then []
  else ch '.' :: lastDigits (9 - trailingZeros 9 nsec) (nsec / 10 ^ trailingZeros 9 nsec)

/-- The minus sign of a negative year. -/
def signText (y : Int) : Bytes := if y < 0 then [ch '-'] else []

/-- The leap years of the Gregorian calendar. -/
def leapYear (y : Int) : Prop := y % 4 = 0 ∧ (y % 100 ≠ 0 ∨ y % 400 = 0)

instance leapYear.decidable (y : Int) : Decidable (leapYear y) := by
  unfold leapYear; infer_instance

/-- The length of month `m` of year `y`. -/
def daysInMonth (y : Int) (m : Nat) : Nat :=
  if m = 2 then (if leapYear y then 29 else 28)
  else if m = 4 ∨ m = 6 ∨ m = 9 ∨ m = 11 then 30
  else 31

/-- The days of year `y` before its month `m`: the lengths of the months before it. -/
def daysBeforeMonth (y : Int) (m : Nat) : Nat :=
  ((List.range (m - 1)).map fun i => daysInMonth y (i + 1)).sum

/-- The days from 1 January of year 1 to 1 January of year `y` in the proleptic Gregorian
calendar: 365 a year and one more for every leap year. -/
def daysBeforeYear (y : Int) : Int :=
  365 * (y - 1) + (y - 1) / 4 - (y - 1) / 100 + (y - 1) / 400

/-- The days from 1 January 1970 to day `d` of month `m` of year `y`. -/
def civilDays (y : Int) (m d : Nat) : Int :=
  daysBeforeYear y + daysBeforeMonth y m + ((d : Int) - 1) - 719162

/-- The Unix second of a date and time of day in UTC: the instant that date and time
name. -/
def civilSeconds (y : Int) (m d hh mi ss : Nat) : Int :=
  86400 * civilDays y m d + 3600 * hh + 60 * mi + ss

/-- A date of the calendar: a month from 1 to 12 and a day that month has. -/
def validDate (y : Int) (m d : Nat) : Prop :=
  1 ≤ m ∧ m ≤ 12 ∧ 1 ≤ d ∧ d ≤ daysInMonth y m

/-- The absent value of each kind: zero for a number, the empty string, `false`, the nil
pointer. -/
def absent : Value → Prop
  | .float64 f => f.isZero = true
  | .int i => i = 0
  | .uint u => u = 0
  | .string s => s = []
  | .bool b => b = false
  | .datr p => p = none
  | .mytime p => p = none

/-- Whether the encoder of a value succeeds: a float must be finite, and the text a
`MarshalJSON` returns must pass `compact`. -/
def encodable : Value → Bool
  | .float64 f => !f.isInfOrNaN
  | .datr p =>
    match marshalerEncoder (p.map datr.MarshalJSON) with
    | .ok _ => true
    | .error _ => false
  | .mytime p =>
    match marshalerEncoder (p.map mytime.MarshalJSON) with
    | .ok _ => true
    | .error _ => false
  | _ => true

/-- The members `structEncoder` writes: key and value text of every field it does not
omit, in order, or the error of the first encoder that fails. -/
def members : List field → Except GoError (List (Bytes × Bytes))
  | [] => .ok []
  | f :: fs =>
    if f.omitEmpty && f.empty then members fs
    else
      match f.encoded with
      | .error err => .error err
      | .ok v =>
        match members fs with
        | .error err => .error err
        | .ok ms => .ok ((f.name, v) :: ms)

/-- Text of one object member: the quoted key, a colon, the value. -/
def member (kv : Bytes × Bytes) : Bytes := lit "\"" ++ kv.1 ++ lit "\":" ++ kv.2

/-- Text of a JSON object with the given members. -/
def object (ms : List (Bytes × Bytes)) : Bytes :=
  ch '\x7b' :: (lit ",").intercalate (ms.map member) ++ [ch '\x7d']

/-- Text of a JSON array with the given elements. -/
def array (es : List Bytes) : Bytes :=
  ch '[' :: (lit ",").intercalate es ++ [ch ']']

/-- The keys of a list of members. -/
def keys (ms : List (Bytes × Bytes)) : List Bytes := ms.map Prod.fst

/-- A record of any of the three types. -/
inductive Record
  | stat (s : Stat)
  | rxpk (r : RXPK)
  | txpk (t : TXPK)
  deriving DecidableEq, Repr

/-- The fields of a record. -/
def Record.entries : Record → List (String × Value)
  | .stat s => s.entries
  | .rxpk r => r.entries
  | .txpk t => t.entries

/-- Call `json.Marshal` on a record. -/
def Record.Marshal (R : Renderers) : Record → Except GoError Bytes
  | .stat s => s.Marshal R
  | .rxpk r => r.Marshal R
  | .txpk t => t.Marshal R

/-- A float that is not a number (a quiet NaN). -/
def NaN : float64 := ⟨0x7FF8000000000001⟩

/-- The `Stat` with every field at its zero value. -/
def zeroStat : Stat := ⟨⟨0⟩, 0, 0, ⟨0⟩, ⟨0⟩, 0, 0, 0, none, 0⟩

/-- The `RXPK` with every field at its zero value. -/
def zeroRXPK : RXPK := ⟨0, [], [], none, ⟨0⟩, ⟨0⟩, [], 0, 0, 0, 0, none, 0⟩

/-- The `TXPK` with every field at its zero value. -/
def zeroTXPK : TXPK := ⟨[], [], none, 0, ⟨0⟩, false, false, [], false, 0, 0, 0, 0, none, 0⟩

/-- An `RXPK` on channel 1 whose frequency is NaN: `RXPK{Chan: 1, Freq: math.NaN()}`. -/
def nanRXPK : RXPK := { zeroRXPK with Chan := 1, Freq := NaN }

/-- A `Stat` whose acknowledgement ratio is NaN: `Stat{Ackr: math.NaN()}`. -/
def nanStat : Stat := { zeroStat with Ackr := NaN }

/-- Renderers to evaluate examples with: a string is written between quotes as it is, a
float as the digits of its bit pattern. -/
def sampleRenderers : Renderers :=
  ⟨fun f => digits f.bits, fun s => lit "\"" ++ s ++ lit "\""⟩

/-! ## Layouts, digits and the calendar -/

/-- the pieces of the layout `time.RFC3339Nano` -/
theorem chunks_RFC3339Nano : chunks RFC3339Nano =
    [.std .stdLongYear, .text (ch '-'), .std .stdZeroMonth, .text (ch '-'), .std .stdZeroDay,
     .text (ch 'T'), .std .stdHour, .text (ch ':'), .std .stdZeroMinute, .text (ch ':'),
     .std .stdZeroSecond, .std (.stdFracSecond9 9 (ch '.')), .std .stdISO8601ColonTZ] := by
  decide

/-- the pieces of the layout of the `Stat` fixture: `GMT` is literal text -/
theorem chunks_GMT : chunks layoutGMT =
    [.std .stdLongYear, .text (ch '-'), .std .stdZeroMonth, .text (ch '-'), .std .stdZeroDay,
     .text (ch ' '), .std .stdHour, .text (ch ':'), .std .stdZeroMinute, .text (ch ':'),
     .std .stdZeroSecond, .text (ch ' '), .text (ch 'G'), .text (ch 'M'), .text (ch 'T')] := by
  decide

/-- a number below one hundred padded to width two is its two digits -/
theorem appendInt_two (n : Nat) (h : n < 100) : appendInt (n : Int) 2 = twoDigits n := by
  interval_cases n <;> decide

/-- the character of a digit is a digit byte, and `0` only for zero -/
theorem isDigit_digitChar (d : Nat) (h : d < 10) :
    ch '0' ≤ ch (Nat.digitChar d) ∧ ch (Nat.digitChar d) ≤ ch '9' ∧
    (d ≠ 0 → ch (Nat.digitChar d) ≠ ch '0') := by
  interval_cases d <;> decide

/-- all produced bytes are decimal digits -/
theorem toDigitsCore_isDec (fuel n : Nat) (acc : List Char)
    (hacc : ∀ c ∈ acc, isDec (ch c) = true) :
    ∀ c ∈ Nat.toDigitsCore 10 fuel n acc, isDec (ch c) = true := by
  induction fuel generalizing n acc with
  | zero => simpa [Nat.toDigitsCore] using hacc
  | succ fuel ih =>
    have hd := isDigit_digitChar (n % 10) (Nat.mod_lt _ (by decide))
    have hacc2 : ∀ c ∈ Nat.digitChar (n % 10) :: acc, isDec (ch c) = true := by
      intro c hc
      rcases List.mem_cons.mp hc with rfl | hc
      · simp [isDec, hd.1, hd.2.1]
      · exact hacc c hc
    simp only [Nat.toDigitsCore]
    split
    · exact hacc2
    · exact ih _ _ hacc2

/-- every byte of `digits n` is a decimal digit -/
theorem digits_isDec (n : Nat) : ∀ b ∈ digits n, isDec b = true := by
  intro b hb
  simp only [digits, Nat.toDigits, List.mem_map] at hb
  obtain ⟨c, hc, rfl⟩ := hb
  exact toDigitsCore_isDec _ _ _ (by simp) c hc

/-- with enough fuel a non-zero number has a digit other than `0` -/
theorem toDigitsCore_nonzero (fuel n : Nat) (acc : List Char) (hf : n < fuel) (hn : n ≠ 0) :
    ∃ c ∈ Nat.toDigitsCore 10 fuel n acc, ch c ≠ ch '0' := by
  induction fuel generalizing n acc with
  | zero => omega
  | succ fuel ih =>
    simp only [Nat.toDigitsCore]
    split
    · rename_i h0
      have hlt : n < 10 := by omega
      have hd := isDigit_digitChar (n % 10) (Nat.mod_lt _ (by decide))
      exact ⟨_, List.mem_cons_self _ _, hd.2.2 (by omega)⟩
    · rename_i h0
      exact ih (n / 10) _ (by omega) h0

/-- a non-zero number has a digit other than `0` -/
theorem digits_nonzero (n : Nat) (hn : n ≠ 0) : ∃ b ∈ digits n, b ≠ ch '0' := by
  obtain ⟨c, hc, hne⟩ := toDigitsCore_nonzero (n + 1) n [] (by omega) hn
  exact ⟨ch c, List.mem_map.mpr ⟨c, hc, rfl⟩, hne⟩

/-- a number below `10 ^ e` has at most `e` digits -/
theorem digits_length_le (n e : Nat) (h : n < 10 ^ e) (he : 0 < e) : (digits n).length ≤ e := by
  simp only [digits, Nat.toDigits, List.length_map]
  exact Nat.toDigitsCore_length 10 (by decide) _ _ e h he

/-- `appendInt` on a number that is not negative: padding, then digits -/
theorem appendInt_nat (n w : Nat) :
    appendInt (n : Int) w = List.replicate (w - (digits n).length) (ch '0') ++ digits n := by
  simp [appendInt]

/-- padded to width `w`, a number below `10 ^ w` takes exactly `w` bytes -/
theorem appendInt_nat_length (n w : Nat) (h : n < 10 ^ w) (hw : 0 < w) :
    (appendInt (n : Int) w).length = w := by
  have := digits_length_le n w h hw
  simp [appendInt_nat]
  omega

/-- every byte `appendInt` writes for a number that is not negative is a digit -/
theorem appendInt_nat_isDec (n w : Nat) : ∀ b ∈ appendInt (n : Int) w, isDec b = true := by
  intro b hb
  rw [appendInt_nat] at hb
  rcases List.mem_append.mp hb with hb | hb
  · rw [List.mem_replicate] at hb
    rw [hb.2]; decide
  · exact digits_isDec n b hb

/-- trimming on the right keeps a first byte that is not the trimmed one -/
theorem trimRight_cons (c x : UInt8) (l : Bytes) (hx : x ≠ c) :
    trimRight c (x :: l) = x :: trimRight c l := by
  unfold trimRight
  induction l using List.reverseRecOn with
  | nil => simp [List.rdropWhile, hx]
  | append_singleton l y ih =>
    rw [← List.cons_append, List.rdropWhile_concat, List.rdropWhile_concat]
    split
    · exact ih
    · rfl

/-- the layout element `.999999999`: a point and the nine digits trimmed on the right -/
theorem appendNano_nine (nsec : Nat) (h : nsec < 1000000000) :
    appendNano nsec true 9 (ch '.') =
      (if nsec = 0 then [] else ch '.' :: trimRight (ch '0') (appendInt nsec 9)) := by
  unfold appendNano
  by_cases h0 : nsec = 0
  · simp [h0]
  · have hlen : (appendInt (nsec : Int) 9).length = 9 := appendInt_nat_length nsec 9 (by omega) (by decide)
    have htake : (appendInt (nsec : Int) 9).take 9 = appendInt (nsec : Int) 9 :=
      List.take_of_length_le (by omega)
    simp only [h0, htake, Bool.true_and, Bool.or_false, decide_False, decide_True, if_false, if_true,
      show (decide (9 = 0)) = false from rfl, Bool.false_eq_true, Bool.or_self]
    rw [trimRight_cons _ _ _ (by decide)]
    -- the trimmed digits are not empty and do not end in the separator
    have hne : trimRight (ch '0') (appendInt (nsec : Int) 9) ≠ [] := by
      intro hnil
      unfold trimRight at hnil
      rw [List.rdropWhile_eq_nil_iff] at hnil
      obtain ⟨b, hb, hb0⟩ := digits_nonzero nsec h0
      have : b ∈ appendInt (nsec : Int) 9 := by
        rw [appendInt_nat]; exact List.mem_append_right _ hb
      have := hnil b this
      simp at this
      exact hb0 this
    have hlast : (ch '.' :: trimRight (ch '0') (appendInt (nsec : Int) 9)).getLast? ≠ some (ch '.') := by
      obtain ⟨y, ys, hy⟩ := List.exists_cons_of_ne_nil hne
      rw [hy, List.getLast?_cons_cons]
      intro hdot
      have hmem : ch '.' ∈ trimRight (ch '0') (appendInt (nsec : Int) 9) := by
        rw [hy]; exact List.mem_of_getLast?_eq_some hdot
      have hmem2 : ch '.' ∈ appendInt (nsec : Int) 9 :=
        (List.rdropWhile_prefix _ _).subset hmem
      have := appendInt_nat_isDec nsec 9 _ hmem2
      revert this
      decide
    simp [hlast]

/-- the byte of a digit character -/
theorem ch_digitChar (d : Nat) (h : d < 10) : ch (Nat.digitChar d) = UInt8.ofNat (48 + d) := by
  interval_cases d <;> decide

/-- a digit byte is `0` exactly for the digit zero -/
theorem ofNat_digit_eq_zero (d : Nat) (h : d < 10) :
    (UInt8.ofNat (48 + d) == ch '0') = decide (d = 0) := by
  interval_cases d <;> decide

/-- the digit loop writes in front of what was there -/
theorem toDigitsCore_acc (f n : Nat) (ds : List Char) :
    Nat.toDigitsCore 10 f n ds = Nat.toDigitsCore 10 f n [] ++ ds := by
  induction f generalizing n ds with
  | zero => simp [Nat.toDigitsCore]
  | succ f ih =>
    simp only [Nat.toDigitsCore]
    split
    · simp
    · rw [ih (n / 10) (Nat.digitChar (n % 10) :: ds), ih (n / 10) [Nat.digitChar (n % 10)]]
      simp

/-- the digit loop does not depend on its fuel once there is enough -/
theorem toDigitsCore_fuel (f f' n : Nat) (h : n < f) (h' : n < f') :
    Nat.toDigitsCore 10 f n [] = Nat.toDigitsCore 10 f' n [] := by
  induction f generalizing f' n with
  | zero => omega
  | succ f ih =>
    cases f' with
    | zero => omega
    | succ f' =>
      simp only [Nat.toDigitsCore]
      split
      · rfl
      · rename_i h0
        rw [toDigitsCore_acc f, toDigitsCore_acc f',
          ih f' (n / 10) (by omega) (by omega)]

/-- the digit loop: one digit below ten, else the digits of the tenth and the last digit -/
theorem digits_rec (n : Nat) :
    digits n = if n < 10 then [UInt8.ofNat (48 + n)]
      else digits (n / 10) ++ [UInt8.ofNat (48 + n % 10)] := by
  simp only [digits, Nat.toDigits]
  rw [show Nat.toDigitsCore 10 (n + 1) n [] =
    (if n / 10 = 0 then [Nat.digitChar (n % 10)]
      else Nat.toDigitsCore 10 n (n / 10) [Nat.digitChar (n % 10)]) by simp [Nat.toDigitsCore]]
  by_cases h : n < 10
  · have h0 : n / 10 = 0 := by omega
    have hm : n % 10 = n := by omega
    simp [h, h0, hm, ch_digitChar n h]
  · have h0 : ¬ n / 10 = 0 := by omega
    simp only [h, h0, if_false]
    rw [toDigitsCore_acc, toDigitsCore_fuel n (n / 10 + 1) (n / 10) (by omega) (by omega)]
    simp [ch_digitChar (n % 10) (Nat.mod_lt _ (by decide))]

/-- the last `w` digits are `w` bytes -/
theorem lastDigits_length (w n : Nat) : (lastDigits w n).length = w := by
  induction w generalizing n with
  | zero => rfl
  | succ w ih => simp [lastDigits, ih]

/-- the last digits of zero are zeros -/
theorem lastDigits_zero (w : Nat) : lastDigits w 0 = List.replicate w (ch '0') := by
  induction w with
  | zero => rfl
  | succ w ih =>
    simp only [lastDigits, Nat.zero_div, ih]
    rw [List.replicate_succ']
    rfl

/-- the number of digits the digit loop writes is the least width that holds the number -/
theorem digits_length_bounds (n : Nat) :
    1 ≤ (digits n).length ∧ n < 10 ^ (digits n).length ∧
      (1 ≤ n → 10 ^ ((digits n).length - 1) ≤ n) := by
  induction n using Nat.strong_induction_on with
  | _ n ih =>
    rw [digits_rec]
    by_cases h : n < 10
    · simp only [h, if_true, List.length_singleton]
      refine ⟨le_refl _, by omega, fun h1 => by simpa using h1⟩
    · simp only [h, if_false, List.length_append, List.length_singleton]
      obtain ⟨h1, h2, h3⟩ := ih (n / 10) (by omega)
      refine ⟨by omega, ?_, fun _ => ?_⟩
      · rw [pow_succ]; omega
      · have := h3 (by omega)
        rw [Nat.add_sub_cancel]
        have e : (digits (n / 10)).length = ((digits (n / 10)).length - 1) + 1 := by omega
        rw [e, pow_succ]
        omega

/-- padded to a width that holds it, a number is written as its last digits -/
theorem appendInt_eq_lastDigits (w n : Nat) (hw : 1 ≤ w) (h : n < 10 ^ w) :
    appendInt (n : Int) w = lastDigits w n := by
  induction w generalizing n with
  | zero => omega
  | succ w ih =>
    rw [appendInt_nat, digits_rec]
    by_cases h10 : n < 10
    · have h0 : n / 10 = 0 := by omega
      have hm : n % 10 = n := by omega
      simp [h10, lastDigits, h0, hm, lastDigits_zero]
    · have hw1 : 1 ≤ w := by
        rcases Nat.eq_zero_or_pos w with h0 | h0
        · subst h0; simp at h; omega
        · exact h0
      have hq : n / 10 < 10 ^ w := by
        rw [pow_succ] at h; omega
      have := ih (n / 10) hw1 hq
      rw [appendInt_nat] at this
      simp only [h10, if_false, List.length_append, List.length_singleton, lastDigits]
      rw [← this, Nat.add_sub_add_right, List.append_assoc]

/-- the year as `appendInt` writes it at width four -/
theorem appendInt_year (y : Int) :
    ∃ w, 4 ≤ w ∧ y.natAbs < 10 ^ w ∧ (w = 4 ∨ 10 ^ (w - 1) ≤ y.natAbs) ∧
      appendInt y 4 = signText y ++ lastDigits w y.natAbs := by
  obtain ⟨h1, h2, h3⟩ := digits_length_bounds y.natAbs
  have hnat : List.replicate (4 - (digits y.natAbs).length) (ch '0') ++ digits y.natAbs =
      appendInt (y.natAbs : Int) 4 := (appendInt_nat _ _).symm
  have hy : appendInt y 4 = signText y ++ appendInt (y.natAbs : Int) 4 := by
    rw [← hnat]
    simp [appendInt, signText]
  by_cases h4 : y.natAbs < 10 ^ 4
  · exact ⟨4, le_refl _, h4, Or.inl rfl, by rw [hy, appendInt_eq_lastDigits 4 _ (by decide) h4]⟩
  · have hlen : 4 < (digits y.natAbs).length := by
      by_contra hle
      have : 10 ^ (digits y.natAbs).length ≤ 10 ^ 4 :=
        Nat.pow_le_pow_right (by decide) (by omega)
      omega
    refine ⟨(digits y.natAbs).length, by omega, h2, Or.inr (h3 (by
      have : 0 < 10 ^ 4 := by decide
      omega)), ?_⟩
    rw [hy, ← appendInt_eq_lastDigits _ _ h1 h2, appendInt_nat, appendInt_nat]
    simp [show 4 - (digits y.natAbs).length = 0 by omega]

/-- trimming the zeros at the end of the last digits -/
theorem trimRight_lastDigits (w n : Nat) :
    trimRight (ch '0') (lastDigits w n) =
      lastDigits (w - trailingZeros w n) (n / 10 ^ trailingZeros w n) := by
  induction w generalizing n with
  | zero => simp [lastDigits, trailingZeros, trimRight]
  | succ w ih =>
    unfold trimRight at ih ⊢
    simp only [lastDigits, trailingZeros]
    rw [List.rdropWhile_concat, ofNat_digit_eq_zero _ (Nat.mod_lt _ (by decide))]
    by_cases h0 : n % 10 = 0
    · simp only [h0, decide_True, if_true]
      rw [ih (n / 10), Nat.add_sub_add_right, pow_succ, Nat.div_div_eq_div_mul, Nat.mul_comm]
    · simp [h0, lastDigits]

/-- the layout element `.999999999` writes the fraction -/
theorem appendNano_fraction (nsec : Nat) (h : nsec < 1000000000) :
    appendNano nsec true 9 (ch '.') = fraction nsec := by
  rw [appendNano_nine nsec h]
  unfold fraction
  by_cases h0 : nsec = 0
  · simp [h0]
  · simp only [h0, if_false]
    rw [appendInt_eq_lastDigits 9 nsec (by decide) (by omega), trimRight_lastDigits]

/-- a year adds its length, 366 days for a leap year and 365 otherwise -/
theorem daysBeforeYear_succ (y : Int) :
    daysBeforeYear (y + 1) = daysBeforeYear y + (if leapYear y then 366 else 365) := by
  unfold daysBeforeYear leapYear
  split <;> omega

/-- the days before each month, one more after February in a leap year -/
theorem daysBeforeMonth_table (y : Int) (m : Nat) (h1 : 1 ≤ m) (h2 : m ≤ 12) :
    daysBeforeMonth y m =
      [0, 31, 59, 90, 120, 151, 181, 212, 243, 273, 304, 334].getD (m - 1) 0 +
        (if 2 < m ∧ leapYear y then 1 else 0) := by
  interval_cases m <;>
    simp [daysBeforeMonth, List.range_succ, daysInMonth] <;>
    split <;> simp_all

/-- the days before the calendar year that ends absolute year `cy` of century `c` -/
theorem daysBeforeYear_abs (c cy : Nat) (hcy : cy ≤ 99) :
    daysBeforeYear ((c * 100 : Nat) - 292277022400 + cy + 1) =
      ((36524 * c + c / 4 + 365 * cy + cy / 4 + 306 : Nat) : Int) - 106751991073400 + 719162 := by
  unfold daysBeforeYear
  have e4 : ((c * 100 : Nat) - 292277022400 + (cy : Int) + 1 - 1) / 4 =
      ((25 * c + cy / 4 : Nat) : Int) - 73069255600 := by omega
  have e100 : ((c * 100 : Nat) - 292277022400 + (cy : Int) + 1 - 1) / 100 =
      (c : Int) - 2922770224 := by omega
  have e400 : ((c * 100 : Nat) - 292277022400 + (cy : Int) + 1 - 1) / 400 =
      ((c / 4 : Nat) : Int) - 730692556 := by omega
  rw [e4, e100, e400]
  push_cast
  omega

/-- the date computed from the split of an absolute day is a date of the calendar, and
it is the date of that day -/
theorem civil_of_split (D c cday cy ay : Nat)
    (hc : c = (4 * D + 3) / 146097) (hcd : cday = (4 * D + 3) % 146097 / 4)
    (hcy : cy = (4 * cday + 3) / 1461) (hay : ay = (4 * cday + 3) % 1461 / 4) :
    validDate ((c * 100 : Nat) - 292277022400 + cy + (if ay ≥ 306 then 1 else 0 : Nat))
        ((5 * ay + 461) / 153 - 12 * (if ay ≥ 306 then 1 else 0))
        ((5 * ay + 461) % 153 / 5 + 1) ∧
      civilDays ((c * 100 : Nat) - 292277022400 + cy + (if ay ≥ 306 then 1 else 0 : Nat))
        ((5 * ay + 461) / 153 - 12 * (if ay ≥ 306 then 1 else 0))
        ((5 * ay + 461) % 153 / 5 + 1) = (D : Int) - 106751991073400 := by
  -- the day within the century
  have hr : (4 * D + 3) % 146097 = 4 * cday + (3 - c % 4) ∧ c % 4 ≤ 3 := by
    have e1 := Nat.div_add_mod (4 * D + 3) 146097
    have e2 := Nat.div_add_mod ((4 * D + 3) % 146097) 4
    have e3 := Nat.mod_lt ((4 * D + 3) % 146097) (show 0 < 4 by decide)
    rw [← hc] at e1
    rw [← hcd] at e2
    omega
  have h1 : D = 36524 * c + c / 4 + cday := by
    have e1 := Nat.div_add_mod (4 * D + 3) 146097
    rw [← hc] at e1
    omega
  have h1b : cday ≤ 36524 ∧ (cday = 36524 → c % 4 = 3) := by
    have e3 := Nat.mod_lt (4 * D + 3) (show 0 < 146097 by decide)
    omega
  -- the day within the year
  have hr2 : (4 * cday + 3) % 1461 = 4 * ay + (3 - cy % 4) ∧ cy % 4 ≤ 3 := by
    have e1 := Nat.div_add_mod (4 * cday + 3) 1461
    have e2 := Nat.div_add_mod ((4 * cday + 3) % 1461) 4
    have e3 := Nat.mod_lt ((4 * cday + 3) % 1461) (show 0 < 4 by decide)
    rw [← hcy] at e1
    rw [← hay] at e2
    omega
  have h2 : cday = 365 * cy + cy / 4 + ay := by
    have e1 := Nat.div_add_mod (4 * cday + 3) 1461
    rw [← hcy] at e1
    omega
  have h2b : ay ≤ 365 ∧ cy ≤ 99 ∧ (ay = 365 → cy % 4 = 3) ∧ (cy = 99 → ay ≤ 364 ∨ c % 4 = 3) := by
    have e3 := Nat.mod_lt (4 * cday + 3) (show 0 < 1461 by decide)
    omega
  clear hc hcd hcy hay hr hr2
  subst h1 h2
  obtain ⟨hay, hcy, h365, h99⟩ := h2b
  clear h1b
  have em := Nat.div_add_mod (5 * ay + 461) 153
  have em2 := Nat.mod_lt (5 * ay + 461) (show 0 < 153 by decide)
  generalize hm : (5 * ay + 461) / 153 = m at *
  generalize hq : (5 * ay + 461) % 153 = q at *
  have hmr : 3 ≤ m ∧ m ≤ 14 := by omega
  have hyear := daysBeforeYear_abs c cy hcy
  by_cases hjf : ay ≥ 306
  · have hm2 : 13 ≤ m := by omega
    simp only [hjf, if_true, Nat.cast_one]
    -- February 29 only in a leap year
    have hleap : ay = 365 → leapYear ((c * 100 : Nat) - 292277022400 + cy + 1) := by
      intro h
      have h3 := h365 h
      unfold leapYear
      by_cases h9 : cy = 99
      · have := h99 h9
        omega
      · omega
    generalize (((c * 100 : Nat) : Int) - 292277022400 + cy + 1) = y at *
    obtain ⟨_, hm3⟩ := hmr
    interval_cases m
    · simp only [validDate, civilDays, hyear, daysInMonth]
      simp [daysBeforeMonth_table]
      omega
    · simp only [validDate, civilDays, hyear, daysInMonth]
      simp [daysBeforeMonth_table]
      refine ⟨?_, by omega⟩
      split
      · omega
      · rename_i hn
        have : ay ≠ 365 := fun h => hn (hleap h)
        omega
  · have hm2 : m ≤ 12 := by omega
    simp only [hjf, if_false, Nat.cast_zero, add_zero]
    have hsucc := daysBeforeYear_succ ((c * 100 : Nat) - 292277022400 + cy)
    rw [hyear] at hsucc
    generalize (((c * 100 : Nat) : Int) - 292277022400 + cy) = y at *
    obtain ⟨hm3, _⟩ := hmr
    by_cases hL : leapYear y
    · simp only [hL, if_true] at hsucc
      interval_cases m <;>
        simp only [validDate, civilDays, daysInMonth] <;>
        rw [daysBeforeMonth_table y _ (by decide) (by decide)] <;>
        simp [hL] <;> omega
    · simp only [hL, if_false] at hsucc
      interval_cases m <;>
        simp only [validDate, civilDays, daysInMonth] <;>
        rw [daysBeforeMonth_table y _ (by decide) (by decide)] <;>
        simp [hL] <;> omega

/-- `absDate` gives a date of the calendar, that of the day of the absolute time -/
theorem absDate_civil (abs : Nat) :
    validDate (absDate abs).year (absDate abs).month (absDate abs).day ∧
    civilDays (absDate abs).year (absDate abs).month (absDate abs).day =
      ((abs / 86400 : Nat) : Int) - 106751991073400 :=
  civil_of_split (abs / 86400) _ _ _ _ rfl rfl rfl rfl

/-! ## The Time encoder -/

/-- the clock fields are in range and add up to the second of the day -/
theorem absClock_bounds (abs : Nat) :
    (absClock abs).hour < 24 ∧ (absClock abs).min < 60 ∧ (absClock abs).sec < 60 ∧
      3600 * (absClock abs).hour + 60 * (absClock abs).min + (absClock abs).sec = abs % 86400 := by
  simp only [absClock, secondsPerDay, secondsPerHour, secondsPerMinute]
  omega

/-- no month has more than 31 days -/
theorem daysInMonth_le (y : Int) (m : Nat) : daysInMonth y m ≤ 31 := by
  unfold daysInMonth
  split
  · split <;> omega
  · split <;> omega

/-- from the absolute zero instant on, and within 64 bits, the absolute time of a UTC
instant does not wrap -/
theorem abs_of_range (t : Time) (h : t.offset = 0) (hlo : absoluteZeroUnix ≤ t.unix)
    (hhi : t.unix < 2 ^ 63) : (t.abs : Int) = t.unix + 9223372028741760000 := by
  simp only [Time.abs, h, unixToAbsolute, absoluteZeroUnix] at *
  omega

/-- the date and clock `Format` computes are those of the instant -/
theorem date_of_instant (t : Time) (h : t.offset = 0) (hlo : absoluteZeroUnix ≤ t.unix)
    (hhi : t.unix < 2 ^ 63) :
    t.unix = civilSeconds (absDate t.abs).year (absDate t.abs).month (absDate t.abs).day
      (absClock t.abs).hour (absClock t.abs).min (absClock t.abs).sec := by
  have ha := abs_of_range t h hlo hhi
  have hc := (absClock_bounds t.abs).2.2.2
  have hd := (absDate_civil t.abs).2
  have e := Nat.div_add_mod t.abs 86400
  unfold civilSeconds
  rw [hd]
  omega

/-- text of `Format` under `time.RFC3339Nano` for a time with zone offset zero -/
theorem Format_RFC3339Nano (t : Time) (h : t.offset = 0) :
    t.Format RFC3339Nano =
      appendInt (absDate t.abs).year 4 ++ lit "-" ++ twoDigits (absDate t.abs).month
        ++ lit "-" ++ twoDigits (absDate t.abs).day ++ lit "T"
        ++ twoDigits (absClock t.abs).hour ++ lit ":" ++ twoDigits (absClock t.abs).min
        ++ lit ":" ++ twoDigits (absClock t.abs).sec ++ fraction t.nsec ++ lit "Z" := by
  have hd := (absDate_civil t.abs).1
  have hm := daysInMonth_le (absDate t.abs).year (absDate t.abs).month
  have hc := absClock_bounds t.abs
  obtain ⟨_, hd2, _, hd4⟩ := hd
  have e1 : lit "-" = [ch '-'] := by decide
  have e2 : lit "T" = [ch 'T'] := by decide
  have e3 : lit ":" = [ch ':'] := by decide
  have e4 : lit "Z" = [ch 'Z'] := by decide
  simp only [Time.Format, chunks_RFC3339Nano, List.flatMap_cons, List.flatMap_nil,
    Time.appendChunk, Time.appendStd, appendZone, h, e1, e2, e3, e4]
  rw [appendInt_two _ (by omega), appendInt_two _ (by omega), appendInt_two _ (by omega),
    appendInt_two _ (by omega), appendInt_two _ (by omega), appendNano_fraction _ t.nsec.isLt]
  simp

/-- text of `Format` under the layout of the `Stat` fixture -/
theorem Format_GMT (t : Time) :
    t.Format layoutGMT =
      appendInt (absDate t.abs).year 4 ++ lit "-" ++ twoDigits (absDate t.abs).month
        ++ lit "-" ++ twoDigits (absDate t.abs).day ++ lit " "
        ++ twoDigits (absClock t.abs).hour ++ lit ":" ++ twoDigits (absClock t.abs).min
        ++ lit ":" ++ twoDigits (absClock t.abs).sec ++ lit " GMT" := by
  have hd := (absDate_civil t.abs).1
  have hm := daysInMonth_le (absDate t.abs).year (absDate t.abs).month
  have hc := absClock_bounds t.abs
  obtain ⟨_, hd2, _, hd4⟩ := hd
  have e1 : lit "-" = [ch '-'] := by decide
  have e2 : lit " " = [ch ' '] := by decide
  have e3 : lit ":" = [ch ':'] := by decide
  have e4 : lit " GMT" = [ch ' ', ch 'G', ch 'M', ch 'T'] := by decide
  simp only [Time.Format, chunks_GMT, List.flatMap_cons, List.flatMap_nil,
    Time.appendChunk, Time.appendStd, e1, e2, e3, e4]
  rw [appendInt_two _ (by omega), appendInt_two _ (by omega), appendInt_two _ (by omega),
    appendInt_two _ (by omega), appendInt_two _ (by omega)]
  simp

/-- C8 (amended): for every UTC instant from the absolute zero instant of package time on
(1 March of the year -292277022400, Unix second -9223372028741760000) and within the 64-bit
range of Unix seconds, `mytime.MarshalJSON` under the layout `time.RFC3339Nano` returns a nil
error and a quote, the date, `T`, the clock time, the fraction, `Z` and a quote, where the
date and clock time are those of the instant: year `y`, month `mo`, day `d`, hour `hh`,
minute `mi` and second `ss` form a date of the calendar and a time of day, and the instant is
the Unix second that date and time name. The year is written with a minus sign if negative
and its digits padded with zeros to four (`w` digits, four unless the year needs more), month,
day, hour, minute and second with two digits each, the fraction as nothing when the
nanoseconds are zero and else a point and their nine digits without the zeros at the end.
The instant 2013-03-31T16:21:17.528002Z, Unix second 1364746877, encodes as
`"2013-03-31T16:21:17.528002Z"`, quotes included. -/
theorem mytime_MarshalJSON_RFC3339Nano (t : Time) (h : t.offset = 0)
    (hlo : absoluteZeroUnix ≤ t.unix) (hhi : t.unix < 2 ^ 63) :
    (∃ (y : Int) (mo d hh mi ss w : Nat),
      (validDate y mo d ∧ hh < 24 ∧ mi < 60 ∧ ss < 60) ∧
      t.unix = civilSeconds y mo d hh mi ss ∧
      (4 ≤ w ∧ y.natAbs < 10 ^ w ∧ (w = 4 ∨ 10 ^ (w - 1) ≤ y.natAbs)) ∧
      mytime.MarshalJSON ⟨RFC3339Nano, t⟩ =
        (lit "\"" ++ (signText y ++ lastDigits w y.natAbs ++ lit "-" ++ twoDigits mo
            ++ lit "-" ++ twoDigits d) ++ lit "T"
          ++ (twoDigits hh ++ lit ":" ++ twoDigits mi ++ lit ":" ++ twoDigits ss)
          ++ fraction t.nsec ++ lit "Z" ++ lit "\"", none)) ∧
    (fraction 0 = [] ∧ fraction 528002000 = lit ".528002" ∧ fraction 1 = lit ".000000001") ∧
    (time1.unix = civilSeconds 2013 3 31 16 21 17 ∧ time1.nsec.val = 528002000 ∧
      mytime.MarshalJSON ⟨RFC3339Nano, time1⟩ = (lit "\"2013-03-31T16:21:17.528002Z\"", none)) := by
  refine ⟨?_, ⟨by decide, by decide, by decide⟩, ⟨by decide, by decide, by decide⟩⟩
  have hd := (absDate_civil t.abs).1
  have hc := absClock_bounds t.abs
  obtain ⟨w, hw1, hw2, hw3, hw⟩ := appendInt_year (absDate t.abs).year
  refine ⟨_, _, _, _, _, _, w, ⟨hd, hc.1, hc.2.1, hc.2.2.1⟩, date_of_instant t h hlo hhi,
    ⟨hw1, hw2, hw3⟩, ?_⟩
  simp only [mytime.MarshalJSON, Format_RFC3339Nano t h, hw]
  simp

/-- C9 (amended): for every UTC instant from the absolute zero instant of package time on
(1 March of the year -292277022400, Unix second -9223372028741760000) and within the 64-bit
range of Unix seconds, `mytime.MarshalJSON` under the layout `"2006-01-02 15:04:05 GMT"`
returns a nil error and a quote, the date, a space, the clock time to the second, the literal
` GMT` and a quote, whatever the nanoseconds, where the date and clock time are those of the
instant: year `y`, month `mo`, day `d`, hour `hh`, minute `mi` and second `ss` form a date
of the calendar and a time of day, and the instant is the Unix second that date and time
name. The year is written with a minus sign if negative and its digits padded with zeros to
four, the other fields with two digits each. The instant 2014-01-12T08:59:28Z, Unix second
1389517168, encodes as `"2014-01-12 08:59:28 GMT"`, quotes included. -/
theorem mytime_MarshalJSON_GMT (t : Time) (h : t.offset = 0)
    (hlo : absoluteZeroUnix ≤ t.unix) (hhi : t.unix < 2 ^ 63) :
    (∃ (y : Int) (mo d hh mi ss w : Nat),
      (validDate y mo d ∧ hh < 24 ∧ mi < 60 ∧ ss < 60) ∧
      t.unix = civilSeconds y mo d hh mi ss ∧
      (4 ≤ w ∧ y.natAbs < 10 ^ w ∧ (w = 4 ∨ 10 ^ (w - 1) ≤ y.natAbs)) ∧
      ∀ nsec, mytime.MarshalJSON ⟨layoutGMT, { t with nsec := nsec }⟩ =
        (lit "\"" ++ (signText y ++ lastDigits w y.natAbs ++ lit "-" ++ twoDigits mo
            ++ lit "-" ++ twoDigits d) ++ lit " "
          ++ (twoDigits hh ++ lit ":" ++ twoDigits mi ++ lit ":" ++ twoDigits ss)
          ++ lit " GMT" ++ lit "\"", none)) ∧
    (time3.unix = civilSeconds 2014 1 12 8 59 28 ∧
      mytime.MarshalJSON ⟨layoutGMT, time3⟩ = (lit "\"2014-01-12 08:59:28 GMT\"", none)) := by
  refine ⟨?_, ⟨by decide, by decide⟩⟩
  have hd := (absDate_civil t.abs).1
  have hc := absClock_bounds t.abs
  obtain ⟨w, hw1, hw2, hw3, hw⟩ := appendInt_year (absDate t.abs).year
  refine ⟨_, _, _, _, _, _, w, ⟨hd, hc.1, hc.2.1, hc.2.2.1⟩, date_of_instant t h hlo hhi,
    ⟨hw1, hw2, hw3⟩, ?_⟩
  intro nsec
  have habs : Time.abs { t with nsec := nsec } = t.abs := rfl
  simp only [mytime.MarshalJSON, Format_GMT, habs, hw]
  simp

set_option maxRecDepth 100000 in
/-- C8 as stated fails: the UTC instant `time.Unix(math.MinInt64, 0)` lies before the absolute
zero instant, and the text shows 4 December of the year 292277026596, 15:30:08: the date and
time of the instant `2 ^ 64` seconds later, not those of the instant. -/
theorem mytime_RFC3339Nano_before_zero :
    (Time.UTC (-9223372036854775808) ⟨0, by decide⟩).offset = 0 ∧
    mytime.MarshalJSON ⟨RFC3339Nano, Time.UTC (-9223372036854775808) ⟨0, by decide⟩⟩ =
      (lit "\"292277026596-12-04T15:30:08Z\"", none) ∧
    civilSeconds 292277026596 12 4 15 30 8 = -9223372036854775808 + 2 ^ 64 ∧
    civilSeconds 292277026596 12 4 15 30 8 ≠ -9223372036854775808 := by
  refine ⟨rfl, by decide, by decide, by decide⟩

set_option maxRecDepth 100000 in
/-- C9 as stated fails: the UTC instant `time.Unix(math.MinInt64, 0)` lies before the absolute
zero instant, and the text shows 4 December of the year 292277026596, 15:30:08: the date and
time of the instant `2 ^ 64` seconds later, not those of the instant. -/
theorem mytime_GMT_before_zero :
    (Time.UTC (-9223372036854775808) ⟨0, by decide⟩).offset = 0 ∧
    mytime.MarshalJSON ⟨layoutGMT, Time.UTC (-9223372036854775808) ⟨0, by decide⟩⟩ =
      (lit "\"292277026596-12-04 15:30:08 GMT\"", none) ∧
    civilSeconds 292277026596 12 4 15 30 8 = -9223372036854775808 + 2 ^ 64 ∧
    civilSeconds 292277026596 12 4 15 30 8 ≠ -9223372036854775808 := by
  refine ⟨rfl, by decide, by decide, by decide⟩

/-! ## The struct encoder -/

/-- the field loop writes the members, joined by commas, after the byte `next` -/
theorem encodeFields_eq (fs : List field) (next : UInt8) :
    encodeFields fs next =
      match members fs with
      | .error err => .error err
      | .ok [] => .ok ([], next)
      | .ok (m :: ms) =>
        .ok (next :: (lit ",").intercalate ((m :: ms).map member), ch ',') := by
  induction fs generalizing next with
  | nil => simp [encodeFields, members]
  | cons f fs ih =>
    simp only [encodeFields, members]
    split
    · exact ih next
    · cases hf : f.encoded with
      | error err => simp
      | ok v =>
        simp only [ih (ch ',')]
        cases hm : members fs with
        | error err => simp
        | ok ms =>
          cases ms with
          | nil => simp [member, List.intercalate]
          | cons m ms =>
            have hc : lit "," = [ch ','] := by decide
            simp [member, List.intercalate, List.intersperse, hc]

/-- `structEncoder` writes the object of its members, or fails where `members` fails -/
theorem structEncoder_eq (fs : List field) :
    structEncoder fs =
      match members fs with
      | .error err => .error err
      | .ok ms => .ok (object ms) := by
  unfold structEncoder
  rw [encodeFields_eq]
  cases hm : members fs with
  | error err => simp
  | ok ms =>
    cases ms with
    | nil => simp [object]; decide
    | cons m ms =>
      have : ch ',' ≠ ch '\x7b' := by decide
      simp [object, this]

/-- the outputs of `structEncoder` -/
theorem structEncoder_ok (fs : List field) (out : Bytes) :
    structEncoder fs = .ok out ↔ ∃ ms, members fs = .ok ms ∧ out = object ms := by
  rw [structEncoder_eq]
  cases hm : members fs with
  | error err => simp
  | ok ms =>
    simp
    constructor
    · intro h; exact h.symm
    · intro h; exact h.symm

/-- the keys written are those of the fields that are not omitted, in order -/
theorem members_keys (fs : List field) (ms : List (Bytes × Bytes)) (h : members fs = .ok ms) :
    keys ms = (fs.filter fun f => !(f.omitEmpty && f.empty)).map (fun f => f.name) := by
  induction fs generalizing ms with
  | nil =>
    simp [members] at h
    subst h; rfl
  | cons f fs ih =>
    simp only [members] at h
    by_cases he : (f.omitEmpty && f.empty) = true
    · simp only [he, if_true] at h
      simp [List.filter, he, ih ms h]
    · simp only [he] at h
      cases hf : f.encoded with
      | error err => simp [hf] at h
      | ok v =>
        cases hm : members fs with
        | error err => simp [hf, hm] at h
        | ok ms' =>
          simp [hf, hm] at h
          subst h
          have := ih ms' hm
          simp only [keys] at this
          simp [List.filter, he, keys, this]

/-- `isEmptyValue` holds exactly of the absent value of each kind -/
theorem isEmptyValue_iff (v : Value) : isEmptyValue v = true ↔ absent v := by
  cases v <;> simp [isEmptyValue, absent]

/-- no record has two fields with the same key -/
theorem entries_keys_nodup (rec : Record) : (rec.entries.map (fun e => lit e.1)).Nodup := by
  cases rec <;>
    simp only [Record.entries, Stat.entries, RXPK.entries, TXPK.entries, List.map] <;> decide

/-- the fields of a record that are not omitted are those whose value is not empty -/
theorem fieldsOf_filter (R : Renderers) (es : List (String × Value)) :
    ((fieldsOf R es).filter fun f => !(f.omitEmpty && f.empty)).map (fun f => f.name) =
      (es.filter fun e => !isEmptyValue e.2).map (fun e => lit e.1) := by
  induction es with
  | nil => rfl
  | cons e es ih =>
    simp only [fieldsOf, List.map_cons, List.filter_cons, field.of, Bool.true_and] at ih ⊢
    cases isEmptyValue e.2 <;> simp_all

/-- the keys written for a record -/
theorem fieldsOf_keys (R : Renderers) (es : List (String × Value)) (ms : List (Bytes × Bytes))
    (h : members (fieldsOf R es) = .ok ms) :
    keys ms = (es.filter fun e => !isEmptyValue e.2).map (fun e => lit e.1) := by
  rw [members_keys _ _ h, fieldsOf_filter]

/-- `json.Marshal` on a record is `structEncoder` on its fields -/
theorem Record_Marshal_eq (R : Renderers) (rec : Record) :
    rec.Marshal R = structEncoder (fieldsOf R rec.entries) := by
  cases rec <;> rfl

/-- the encoder of a value succeeds exactly on the encodable values, whatever the
renderers -/
theorem encode_ok_iff (R : Renderers) (v : Value) :
    (∃ b, v.encode R = .ok b) ↔ encodable v = true := by
  cases v with
  | float64 f =>
    simp only [Value.encode, floatEncoder, encodable]
    cases f.isInfOrNaN <;> simp
  | datr p =>
    simp only [Value.encode, encodable]
    cases marshalerEncoder (p.map datr.MarshalJSON) <;> simp
  | mytime p =>
    simp only [Value.encode, encodable]
    cases marshalerEncoder (p.map mytime.MarshalJSON) <;> simp
  | int i => simp [Value.encode, encodable]
  | uint u => simp [Value.encode, encodable]
  | string s => simp [Value.encode, encodable]
  | bool b => simp [Value.encode, encodable]

/-- `members` succeeds exactly when the encoder of every field not omitted does -/
theorem members_ok_iff (fs : List field) :
    (∃ ms, members fs = .ok ms) ↔
      ∀ f ∈ fs, (f.omitEmpty && f.empty) = false → ∃ v, f.encoded = .ok v := by
  induction fs with
  | nil => simp [members]
  | cons f fs ih =>
    rw [List.forall_mem_cons, ← ih]
    simp only [members]
    by_cases he : (f.omitEmpty && f.empty) = true
    · simp [he]
    · have he' : (f.omitEmpty && f.empty) = false := by simpa using he
      rw [if_neg he]
      cases hf : f.encoded with
      | error err => simp [he']
      | ok v =>
        cases hm : members fs with
        | error err => simp
        | ok ms => simp

/-- a record encodes without error exactly when every field that is not omitted does -/
theorem Record_Marshal_ok_iff (R : Renderers) (rec : Record) :
    (∃ out, rec.Marshal R = .ok out) ↔
      (rec.entries.all fun e => isEmptyValue e.2 || encodable e.2) = true := by
  rw [Record_Marshal_eq]
  constructor
  · rintro ⟨out, h⟩
    obtain ⟨ms, hms, _⟩ := (structEncoder_ok _ _).mp h
    have := (members_ok_iff _).mp ⟨ms, hms⟩
    simp only [List.all_eq_true, Bool.or_eq_true]
    intro e he
    by_cases hemp : isEmptyValue e.2 = true
    · exact Or.inl hemp
    · right
      have h1 := this (field.of R e.1 e.2) (List.mem_map.mpr ⟨e, he, rfl⟩)
        (by simpa [field.of] using hemp)
      exact (encode_ok_iff R e.2).mp h1
  · intro h
    simp only [List.all_eq_true, Bool.or_eq_true] at h
    have : ∃ ms, members (fieldsOf R rec.entries) = .ok ms := by
      rw [members_ok_iff]
      intro f hf hne
      obtain ⟨e, he, rfl⟩ := List.mem_map.mp hf
      rcases h e he with h1 | h1
      · simp [field.of, h1] at hne
      · exact (encode_ok_iff R e.2).mpr h1
    obtain ⟨ms, hms⟩ := this
    exact ⟨object ms, (structEncoder_ok _ _).mpr ⟨ms, hms, rfl⟩⟩

/-- C3 (amended): for every record (Stat, RXPK or TXPK) that `json.Marshal` encodes without
error, the output is the JSON object of the members written, and for every field of the
record its key is among the keys of that object if and only if the value of the field is not
the absent value of its kind (zero for a number, the empty string, `false`, the nil pointer
for Time and Datarate); the object has no other key. So a TXPK with `Imme`, `Ipol` or `Ncrc`
false has no such key, an RXPK with `Stat` 0 has no key `stat`, and a record with `Rfch` 0
has no key `rfch`. -/
theorem Record_Marshal_keys (R : Renderers) (rec : Record) (out : Bytes)
    (h : rec.Marshal R = .ok out) :
    ∃ ms, members (fieldsOf R rec.entries) = .ok ms ∧ out = object ms ∧
      (∀ e ∈ rec.entries, lit e.1 ∈ keys ms ↔ ¬ absent e.2) ∧
      (∀ k ∈ keys ms, ∃ e ∈ rec.entries, k = lit e.1) ∧
      (∀ t, rec = .txpk t →
        (t.Imme = false → lit "imme" ∉ keys ms) ∧ (t.Ipol = false → lit "ipol" ∉ keys ms) ∧
        (t.Ncrc = false → lit "ncrc" ∉ keys ms) ∧ (t.Rfch = 0 → lit "rfch" ∉ keys ms)) ∧
      (∀ r, rec = .rxpk r →
        (r.Stat = 0 → lit "stat" ∉ keys ms) ∧ (r.Rfch = 0 → lit "rfch" ∉ keys ms)) := by
  rw [Record_Marshal_eq, structEncoder_ok] at h
  obtain ⟨ms, hms, hout⟩ := h
  have hk := fieldsOf_keys R _ ms hms
  have hiff : ∀ e ∈ rec.entries, lit e.1 ∈ keys ms ↔ ¬ absent e.2 := by
    intro e he
    rw [hk, ← isEmptyValue_iff]
    simp only [List.mem_map, List.mem_filter]
    constructor
    · rintro ⟨e', ⟨he', hne⟩, hkey⟩
      have := List.inj_on_of_nodup_map (entries_keys_nodup rec) he' he hkey
      subst this
      simpa using hne
    · intro hne
      exact ⟨e, ⟨he, by simpa using hne⟩, rfl⟩
  refine ⟨ms, hms, hout, hiff, ?_, ?_, ?_⟩
  · intro k hkm
    rw [hk] at hkm
    simp only [List.mem_map, List.mem_filter] at hkm
    obtain ⟨e, ⟨he, _⟩, rfl⟩ := hkm
    exact ⟨e, he, rfl⟩
  · intro t ht
    subst ht
    refine ⟨fun h0 => ?_, fun h0 => ?_, fun h0 => ?_, fun h0 => ?_⟩
    · rw [hiff ("imme", .bool t.Imme) (by simp [Record.entries, TXPK.entries])]
      simpa [absent] using h0
    · rw [hiff ("ipol", .bool t.Ipol) (by simp [Record.entries, TXPK.entries])]
      simpa [absent] using h0
    · rw [hiff ("ncrc", .bool t.Ncrc) (by simp [Record.entries, TXPK.entries])]
      simpa [absent] using h0
    · rw [hiff ("rfch", .uint t.Rfch) (by simp [Record.entries, TXPK.entries])]
      simpa [absent] using h0
  · intro r hr
    subst hr
    refine ⟨fun h0 => ?_, fun h0 => ?_⟩
    · rw [hiff ("stat", .int r.Stat) (by simp [Record.entries, RXPK.entries])]
      simpa [absent] using h0
    · rw [hiff ("rfch", .uint r.Rfch) (by simp [Record.entries, RXPK.entries])]
      simpa [absent] using h0

/-! ## The Datarate encoder and the zero records -/

/-- C1: for every Datarate value whose kind is `"uint"` and every token, `datr.MarshalJSON`
returns a nil error and exactly the bytes of the token; kind `"uint"` with token `50000`
yields the five bytes `50000`. -/
theorem datr_MarshalJSON_uint (d : datr) (h : d.kind = lit "uint") :
    d.MarshalJSON = (d.value, none) ∧
    (d.value = lit "50000" → d.MarshalJSON = ([0x35, 0x30, 0x30, 0x30, 0x30], none)) := by
  have h1 : d.MarshalJSON = (d.value, none) := by simp [datr.MarshalJSON, h]
  refine ⟨h1, fun hv => ?_⟩
  rw [h1, hv]
  decide

/-- C1 at the Datarate value of the second fixture record -/
theorem datr_MarshalJSON_uint_witness :
    (datr.mk (lit "uint") (lit "50000")).MarshalJSON = (lit "50000", none) :=
  (datr_MarshalJSON_uint ⟨lit "uint", lit "50000"⟩ rfl).1

/-- the string literal of one double quote is the quote byte -/
theorem quote_eq : lit "\"" = [ch '"'] := by decide

/-- C2: for every Datarate value whose kind is `"string"` and every token,
`datr.MarshalJSON` returns a nil error and a quote, the bytes of the token and a quote, two
bytes more than the token; this holds of every token under that kind, so the digits `50000`
come out quoted, and the token `SF7BW125` yields `"SF7BW125"`. -/
theorem datr_MarshalJSON_string (d : datr) (h : d.kind = lit "string") :
    d.MarshalJSON = (ch '"' :: d.value ++ [ch '"'], none) ∧
    d.MarshalJSON.1.length = d.value.length + 2 ∧
    (∀ token, (datr.mk d.kind token).MarshalJSON.1 = ch '"' :: token ++ [ch '"']) ∧
    (datr.mk d.kind (lit "50000")).MarshalJSON.1 = lit "\"50000\"" ∧
    (datr.mk d.kind (lit "SF7BW125")).MarshalJSON.1 = lit "\"SF7BW125\"" := by
  have hne : lit "string" ≠ lit "uint" := by decide
  have h1 : ∀ token, (datr.mk d.kind token).MarshalJSON = (ch '"' :: token ++ [ch '"'], none) := by
    intro token
    simp [datr.MarshalJSON, h, hne, quote_eq]
  refine ⟨h1 d.value, ?_, fun token => by rw [h1], ?_, ?_⟩
  · have := h1 d.value
    simp only [] at this
    rw [this]; simp
  · rw [h1]; decide
  · rw [h1]; decide

/-- C2 at the Datarate value of the first fixture record -/
theorem datr_MarshalJSON_string_witness :
    (datr.mk (lit "string") (lit "SF7BW125")).MarshalJSON.1 = lit "\"SF7BW125\"" :=
  (datr_MarshalJSON_string ⟨lit "string", lit "SF7BW125"⟩ rfl).2.2.2.2

/-- C10: `datr.MarshalJSON` returns a nil error for every kind and token, and for every kind
other than `"uint"` the token between quotes: so for `"string"`, for the empty kind and for
an unknown kind such as `"float"` alike. -/
theorem datr_MarshalJSON_no_error (d : datr) :
    d.MarshalJSON.2 = none ∧
    d.MarshalJSON.1 = (if d.kind = lit "uint" then d.value else ch '"' :: d.value ++ [ch '"']) ∧
    (datr.mk (lit "string") d.value).MarshalJSON = (ch '"' :: d.value ++ [ch '"'], none) ∧
    (datr.mk (lit "") d.value).MarshalJSON = (ch '"' :: d.value ++ [ch '"'], none) ∧
    (datr.mk (lit "float") d.value).MarshalJSON = (ch '"' :: d.value ++ [ch '"'], none) := by
  have h1 : lit "string" ≠ lit "uint" := by decide
  have h2 : lit "" ≠ lit "uint" := by decide
  have h3 : lit "float" ≠ lit "uint" := by decide
  refine ⟨?_, ?_, ?_, ?_, ?_⟩
  · unfold datr.MarshalJSON; split <;> rfl
  · unfold datr.MarshalJSON; split <;> simp [quote_eq]
  · simp [datr.MarshalJSON, h1, quote_eq]
  · simp [datr.MarshalJSON, h2, quote_eq]
  · simp [datr.MarshalJSON, h3, quote_eq]

/-- C4: for each of the three record types, `json.Marshal` on the record with every field
at its zero value returns no error and the two bytes of the empty object. -/
theorem Marshal_zero_record (R : Renderers) :
    Stat.Marshal R zeroStat = .ok (lit "\x7b\x7d") ∧
    RXPK.Marshal R zeroRXPK = .ok (lit "\x7b\x7d") ∧
    TXPK.Marshal R zeroTXPK = .ok (lit "\x7b\x7d") ∧
    lit "\x7b\x7d" = [0x7B, 0x7D] := by
  refine ⟨rfl, rfl, rfl, by decide⟩

/-! ## The envelope -/

/-- the element loop on elements that all encode: their texts joined by commas -/
theorem encodeElems_ok (es : List Bytes) (i : Nat) :
    encodeElems (es.map Except.ok) i =
      .ok (match es with
        | [] => []
        | e :: es' => (if i > 0 then [ch ','] else []) ++ (lit ",").intercalate (e :: es')) := by
  have hc : lit "," = [ch ','] := by decide
  induction es generalizing i with
  | nil => rfl
  | cons e es ih =>
    simp only [List.map_cons, encodeElems, ih (i + 1)]
    cases es with
    | nil => simp [List.intercalate]
    | cons e' es' =>
      simp [List.intercalate, List.intersperse, hc]

/-- the element loop fails when an element fails -/
theorem encodeElems_error (es : List (Except GoError Bytes)) (i : Nat)
    (h : ∃ e ∈ es, ∃ err, e = .error err) : ∃ err, encodeElems es i = .error err := by
  induction es generalizing i with
  | nil => simp at h
  | cons e es ih =>
    cases e with
    | error err => exact ⟨err, by simp [encodeElems]⟩
    | ok v =>
      have h' : ∃ e ∈ es, ∃ err, e = .error err := by
        obtain ⟨e, he, err, rfl⟩ := h
        rcases List.mem_cons.mp he with h1 | h1
        · cases h1
        · exact ⟨_, h1, err, rfl⟩
      obtain ⟨err, herr⟩ := ih (i + 1) h'
      exact ⟨err, by simp [encodeElems, herr]⟩

/-- `arrayEncoder` on elements that all encode writes the array of their texts -/
theorem arrayEncoder_ok (es : List Bytes) : arrayEncoder (es.map Except.ok) = .ok (array es) := by
  simp only [arrayEncoder, encodeElems_ok]
  cases es <;> simp [array, List.intercalate]

/-- `json.Marshal` on an envelope writes the object of its members -/
theorem Payload_Marshal_eq (R : Renderers) (p : Payload) :
    p.Marshal R =
      match members (p.fields R) with
      | .error err => .error err
      | .ok ms => .ok (object ms) := structEncoder_eq _

set_option maxRecDepth 100000 in
/-- every field of the two fixture records that is not omitted is encodable -/
theorem fixtureRXPK_encodable :
    ((Record.rxpk fixtureRXPK1).entries.all fun e => isEmptyValue e.2 || encodable e.2) = true ∧
    ((Record.rxpk fixtureRXPK2).entries.all fun e => isEmptyValue e.2 || encodable e.2) = true := by
  decide

/-- the one member of an envelope holding only a non-nil RXPK sequence whose records all
encode -/
theorem Payload_members_rxpk (R : Renderers) (rs : List RXPK) (es : List Bytes)
    (h : rs.map (RXPK.Marshal R) = es.map Except.ok) :
    members (Payload.fields R ⟨some (some rs), none, none⟩) = .ok [(lit "rxpk", array es)] := by
  simp [Payload.fields, members, ptrEncoder, sliceEncoder, h, arrayEncoder_ok]

/-- the encoding of an envelope holding only a non-nil RXPK sequence whose records all
encode -/
theorem Payload_rxpk_eq (R : Renderers) (rs : List RXPK) (es : List Bytes)
    (h : rs.map (RXPK.Marshal R) = es.map Except.ok) :
    Payload.Marshal R ⟨some (some rs), none, none⟩ = .ok (object [(lit "rxpk", array es)]) := by
  rw [Payload_Marshal_eq, Payload_members_rxpk R rs es h]

/-- the element loop returns the error of the first element that fails -/
theorem encodeElems_first_error (pre : List Bytes) (err : GoError)
    (post : List (Except GoError Bytes)) (i : Nat) :
    encodeElems (pre.map Except.ok ++ Except.error err :: post) i = .error err := by
  induction pre generalizing i with
  | nil => simp [encodeElems]
  | cons e pre ih => simp [encodeElems, ih (i + 1)]

/-- an envelope holding only a non-nil RXPK sequence returns the error of the first record
that fails to encode -/
theorem Payload_rxpk_first_error (R : Renderers) (pre : List RXPK) (pes : List Bytes)
    (r : RXPK) (post : List RXPK) (err : GoError)
    (hpre : pre.map (RXPK.Marshal R) = pes.map Except.ok)
    (hr : RXPK.Marshal R r = .error err) :
    Payload.Marshal R ⟨some (some (pre ++ r :: post)), none, none⟩ = .error err := by
  rw [Payload_Marshal_eq]
  simp [Payload.fields, members, ptrEncoder, sliceEncoder, arrayEncoder, hpre, hr,
    encodeElems_first_error]

/-- C6 (amended): for every envelope whose RXPK slot holds a non-nil sequence of records each
of which `json.Marshal` encodes without error (`es` lists their encodings in order), with Stat
and TXPK absent, the encoding is the object with the one key `rxpk` whose value is the array
of as many elements as there are records, the i-th the encoding of the i-th record; the
empty sequence gives the object with `rxpk` and an empty array, and the fixture of `main` an
array of two elements. If a record fails to encode, the encoding of the envelope is the
error of the first record that fails: so for the zero record, then the record with a NaN,
then a record whose Datarate is not JSON, it is the error of the NaN. -/
theorem Payload_Marshal_rxpk (R : Renderers) (rs : List RXPK) (es : List Bytes)
    (h : rs.map (RXPK.Marshal R) = es.map Except.ok) :
    Payload.Marshal R ⟨some (some rs), none, none⟩ = .ok (object [(lit "rxpk", array es)]) ∧
    members (Payload.fields R ⟨some (some rs), none, none⟩) = .ok [(lit "rxpk", array es)] ∧
    es.length = rs.length ∧
    (∀ i (h1 : i < rs.length) (h2 : i < es.length),
      RXPK.Marshal R (rs.get ⟨i, h1⟩) = .ok (es.get ⟨i, h2⟩)) ∧
    object [(lit "rxpk", array es)] =
      lit "\x7b\"rxpk\":[" ++ (lit ",").intercalate es ++ lit "]\x7d" ∧
    Payload.Marshal R ⟨some (some []), none, none⟩ = .ok (lit "\x7b\"rxpk\":[]\x7d") ∧
    (∃ e1 e2, RXPK.Marshal R fixtureRXPK1 = .ok e1 ∧ RXPK.Marshal R fixtureRXPK2 = .ok e2 ∧
      Payload.Marshal R fixtureRXPKs = .ok (object [(lit "rxpk", array [e1, e2])])) ∧
    (∀ (pre : List RXPK) (pes : List Bytes) (r : RXPK) (post : List RXPK) (err : GoError),
      pre.map (RXPK.Marshal R) = pes.map Except.ok → RXPK.Marshal R r = .error err →
      Payload.Marshal R ⟨some (some (pre ++ r :: post)), none, none⟩ = .error err) ∧
    Payload.Marshal R ⟨some (some [zeroRXPK, nanRXPK,
        { zeroRXPK with Datr := some ⟨lit "uint", lit "fast"⟩ }]), none, none⟩ =
      .error .UnsupportedValueError := by
  have hlen : es.length = rs.length := by
    have := congrArg List.length h
    simpa using this.symm
  refine ⟨Payload_rxpk_eq R rs es h, Payload_members_rxpk R rs es h, hlen, ?_, ?_, ?_, ?_,
    fun pre pes r post err hpre hr => Payload_rxpk_first_error R pre pes r post err hpre hr,
    rfl⟩
  · intro i h1 h2
    have := congrArg (fun l => l[i]?) h
    simpa [List.getElem?_map, List.getElem?_eq_getElem h1, List.getElem?_eq_getElem h2] using this
  · have e1 : lit "\x7b\"rxpk\":[" =
        ch '\x7b' :: (lit "\"" ++ lit "rxpk" ++ lit "\":") ++ [ch '['] := by
      decide
    have e2 : lit "]\x7d" = [ch ']', ch '\x7d'] := by decide
    simp [object, array, member, List.intercalate, e1, e2]
  · have := Payload_rxpk_eq R [] [] rfl
    rw [this]
    rfl
  · obtain ⟨e1, h1⟩ := (Record_Marshal_ok_iff R (.rxpk fixtureRXPK1)).mpr fixtureRXPK_encodable.1
    obtain ⟨e2, h2⟩ := (Record_Marshal_ok_iff R (.rxpk fixtureRXPK2)).mpr fixtureRXPK_encodable.2
    simp only [Record.Marshal] at h1 h2
    exact ⟨e1, e2, h1, h2,
      Payload_rxpk_eq R [fixtureRXPK1, fixtureRXPK2] [e1, e2] (by simp [h1, h2])⟩

/-- records that all encode have a list of encodings -/
theorem map_ok_of_forall (R : Renderers) (rs : List RXPK)
    (h : ∀ r ∈ rs, ∃ e, RXPK.Marshal R r = .ok e) :
    ∃ es : List Bytes, rs.map (RXPK.Marshal R) = es.map Except.ok := by
  induction rs with
  | nil => exact ⟨[], rfl⟩
  | cons r rs ih =>
    obtain ⟨e, he⟩ := h r (List.mem_cons_self _ _)
    obtain ⟨es, hes⟩ := ih fun r' hr' => h r' (List.mem_cons_of_mem _ hr')
    exact ⟨e :: es, by simp [he, hes]⟩

/-- an envelope holding only a non-nil RXPK sequence encodes without error exactly when
every record of the sequence does -/
theorem Payload_rxpk_ok_iff (R : Renderers) (rs : List RXPK) :
    (∃ out, Payload.Marshal R ⟨some (some rs), none, none⟩ = .ok out) ↔
      ∀ r ∈ rs, ∃ e, RXPK.Marshal R r = .ok e := by
  constructor
  · rintro ⟨out, h⟩ r hr
    by_contra hne
    have herr : ∃ err, RXPK.Marshal R r = .error err := by
      cases hm : RXPK.Marshal R r with
      | error err => exact ⟨err, rfl⟩
      | ok e => exact absurd ⟨e, hm⟩ hne
    obtain ⟨err, herr⟩ := herr
    obtain ⟨err', h'⟩ := encodeElems_error (rs.map (RXPK.Marshal R)) 0
      ⟨_, List.mem_map.mpr ⟨r, hr, rfl⟩, err, herr⟩
    rw [Payload_Marshal_eq] at h
    simp [Payload.fields, members, ptrEncoder, sliceEncoder, arrayEncoder, h'] at h
  · intro h
    obtain ⟨es, hes⟩ := map_ok_of_forall R rs h
    exact ⟨_, Payload_rxpk_eq R rs es hes⟩

/-- the three keys of the envelope differ -/
theorem rxpk_ne_stat : lit "rxpk" ≠ lit "stat" ∧ lit "rxpk" ≠ lit "txpk" ∧ lit "stat" ≠ lit "txpk" := by
  decide

/-- C5 (amended): for every envelope that `json.Marshal` encodes without error, the output
is the JSON object of the members written; it has the key `rxpk` if and only if the RXPK
slot is not nil, `stat` if and only if the Stat slot is not nil, `txpk` if and only if the
TXPK slot is not nil, and no other key. The envelope with all three slots nil encodes,
without error, to the two bytes of the empty object. -/
theorem Payload_Marshal_keys (R : Renderers) (p : Payload) (out : Bytes)
    (h : p.Marshal R = .ok out) :
    ∃ ms, members (p.fields R) = .ok ms ∧ out = object ms ∧
      (lit "rxpk" ∈ keys ms ↔ p.RXPK ≠ none) ∧
      (lit "stat" ∈ keys ms ↔ p.Stat ≠ none) ∧
      (lit "txpk" ∈ keys ms ↔ p.TXPK ≠ none) ∧
      (∀ k ∈ keys ms, k = lit "rxpk" ∨ k = lit "stat" ∨ k = lit "txpk") ∧
      Payload.Marshal R ⟨none, none, none⟩ = .ok (lit "\x7b\x7d") := by
  unfold Payload.Marshal at h
  rw [structEncoder_ok] at h
  obtain ⟨ms, hms, hout⟩ := h
  have hk := members_keys _ _ hms
  obtain ⟨rx, st, tx⟩ := p
  obtain ⟨n1, n2, n3⟩ := rxpk_ne_stat
  refine ⟨ms, hms, hout, ?_, ?_, ?_, ?_, rfl⟩
  · rw [hk]
    cases rx <;> cases st <;> cases tx <;>
      simp [Payload.fields, List.filter, n1, n2]
  · rw [hk]
    cases rx <;> cases st <;> cases tx <;>
      simp [Payload.fields, List.filter, n1.symm, n3]
  · rw [hk]
    cases rx <;> cases st <;> cases tx <;>
      simp [Payload.fields, List.filter, n2.symm, n3.symm]
  · rw [hk]
    intro k hkm
    simp only [Payload.fields, List.mem_map, List.mem_filter, List.mem_cons,
      List.mem_singleton, List.not_mem_nil, or_false] at hkm
    obtain ⟨f, ⟨hf, _⟩, rfl⟩ := hkm
    rcases hf with rfl | rfl | rfl
    · exact Or.inl rfl
    · exact Or.inr (Or.inl rfl)
    · exact Or.inr (Or.inr rfl)

/-- C7 (amended): for every RXPK sequence `r` (the nil slice included) and every Stat `s`
such that the envelope holding only `r` and the envelope holding only `s` encode without
error, the envelope holding both encodes without error to the object with exactly the
members `rxpk` and `stat`, in that order, the value under `rxpk` being the value under
`rxpk` of the first envelope and the value under `stat` that of the second. -/
theorem Payload_Marshal_rxpk_stat (R : Renderers) (r : Option (List RXPK)) (s : Stat)
    (outr outs : Bytes)
    (hr : Payload.Marshal R ⟨some r, none, none⟩ = .ok outr)
    (hs : Payload.Marshal R ⟨none, some s, none⟩ = .ok outs) :
    ∃ vr vs, outr = object [(lit "rxpk", vr)] ∧ outs = object [(lit "stat", vs)] ∧
      Payload.Marshal R ⟨some r, some s, none⟩ =
        .ok (object [(lit "rxpk", vr), (lit "stat", vs)]) ∧
      members (Payload.fields R ⟨some r, some s, none⟩) =
        .ok [(lit "rxpk", vr), (lit "stat", vs)] := by
  rw [Payload_Marshal_eq] at hr hs ⊢
  simp only [Payload.fields, members, ptrEncoder, Option.map, Option.isNone, Bool.true_and,
    Bool.false_eq_true, if_false, if_true] at hr hs ⊢
  cases hx : sliceEncoder (Option.map (fun l => List.map (RXPK.Marshal R) l) r) with
  | error err =>
    simp only [Option.map] at hx
    rw [hx] at hr
    cases hr
  | ok vr =>
    cases hy : Stat.Marshal R s with
    | error err =>
      rw [hy] at hs
      cases hs
    | ok vs =>
      simp only [Option.map] at hx
      rw [hx] at hr
      rw [hy] at hs
      simp only [Except.ok.injEq] at hr hs
      rw [hx]
      exact ⟨vr, vs, hr.symm, hs.symm, rfl, rfl⟩

/-- C3 as stated fails: the RXPK on channel 1 with frequency NaN has the field `chan` not
absent, yet `json.Marshal` returns an error whatever the renderers, so there is no encoded
object for the key to appear in. -/
theorem Record_Marshal_NaN_fails :
    (("chan", Value.uint 1) ∈ (Record.rxpk nanRXPK).entries ∧ ¬ absent (Value.uint 1)) ∧
    ¬ ∃ R out, (Record.rxpk nanRXPK).Marshal R = .ok out := by
  refine ⟨⟨by simp [Record.entries, RXPK.entries, nanRXPK], by simp [absent]⟩, ?_⟩
  rintro ⟨R, out, h⟩
  have := (Record_Marshal_ok_iff R _).mp ⟨out, h⟩
  revert this
  decide

/-- the error `json.Marshal` returns for the RXPK with a NaN -/
theorem nanRXPK_error (R : Renderers) : RXPK.Marshal R nanRXPK = .error .UnsupportedValueError :=
  rfl

/-- the error `json.Marshal` returns for the Stat with a NaN -/
theorem nanStat_error (R : Renderers) : Stat.Marshal R nanStat = .error .UnsupportedValueError :=
  rfl

/-- the other way to fail: a Datarate of kind `"uint"` whose token is not a JSON value makes
`json.Marshal` return a `MarshalerError` -/
theorem datr_token_error (R : Renderers) :
    RXPK.Marshal R { zeroRXPK with Datr := some ⟨lit "uint", lit "fast"⟩ } =
      .error (.MarshalerError .SyntaxError) ∧
    RXPK.Marshal R { zeroRXPK with Datr := some ⟨lit "uint", lit ""⟩ } =
      .error (.MarshalerError .SyntaxError) ∧
    RXPK.Marshal R { zeroRXPK with Datr := some ⟨lit "string", lit "a\"b"⟩ } =
      .error (.MarshalerError .SyntaxError) :=
  ⟨rfl, rfl, rfl⟩

set_option maxRecDepth 100000 in
/-- a Time whose layout holds a quote makes `json.Marshal` return a `MarshalerError` -/
theorem mytime_layout_error (R : Renderers) :
    Stat.Marshal R { zeroStat with Time := some ⟨lit "15\"04", time3⟩ } =
      .error (.MarshalerError .SyntaxError) :=
  rfl

/-- C5 as stated fails: the envelope whose Stat slot holds a Stat with a NaN has that slot
populated, yet `json.Marshal` returns an error whatever the renderers: no object, no key
`stat`. -/
theorem Payload_Marshal_NaN_stat :
    (Payload.mk none (some nanStat) none).Stat ≠ none ∧
    ¬ ∃ R out, Payload.Marshal R ⟨none, some nanStat, none⟩ = .ok out := by
  refine ⟨by simp, ?_⟩
  rintro ⟨R, out, h⟩
  have : Payload.Marshal R ⟨none, some nanStat, none⟩ = .error .UnsupportedValueError := rfl
  rw [this] at h
  cases h

/-- C6 as stated fails: the envelope holding only the one-record sequence with a NaN
frequency does not encode to an object: `json.Marshal` returns an error. -/
theorem Payload_Marshal_NaN_rxpk :
    ¬ ∃ R out, Payload.Marshal R ⟨some (some [nanRXPK]), none, none⟩ = .ok out := by
  rintro ⟨R, out, h⟩
  have : Payload.Marshal R ⟨some (some [nanRXPK]), none, none⟩ = .error .UnsupportedValueError :=
    rfl
  rw [this] at h
  cases h

/-- C7 as stated fails: the envelope holding the one-record sequence with a NaN frequency
and the zero Stat does not encode to an object: `json.Marshal` returns an error. -/
theorem Payload_Marshal_NaN_rxpk_stat :
    ¬ ∃ R out, Payload.Marshal R ⟨some (some [nanRXPK]), some zeroStat, none⟩ = .ok out := by
  rintro ⟨R, out, h⟩
  have : Payload.Marshal R ⟨some (some [nanRXPK]), some zeroStat, none⟩ =
      .error .UnsupportedValueError := rfl
  rw [this] at h
  cases h

/-! ## The theorems at the values of `main` -/

set_option maxRecDepth 100000 in
/-- C3 (amended) at the TXPK of `main`, which has `Ipol` false and `Rfch` 0 -/
theorem Record_Marshal_keys_witness :
    (Record.txpk fixtureTXPK).Marshal sampleRenderers = .ok (lit "\x7b\"codr\":\"4/6\",\"data\":\"H3P3N2i9qc4yt7rK7ldqoeCVJGBybzPY5h1Dd7P7p8v\",\"datr\":\"SF11BW125\",\"freq\":4650812126120629238,\"imme\":true,\"modu\":\"LORA\",\"powe\":14,\"size\":32\x7d") ∧
    ∃ ms, lit "\x7b\"codr\":\"4/6\",\"data\":\"H3P3N2i9qc4yt7rK7ldqoeCVJGBybzPY5h1Dd7P7p8v\",\"datr\":\"SF11BW125\",\"freq\":4650812126120629238,\"imme\":true,\"modu\":\"LORA\",\"powe\":14,\"size\":32\x7d" = object ms ∧
      lit "imme" ∈ keys ms ∧ lit "ipol" ∉ keys ms ∧ lit "rfch" ∉ keys ms :=
  ⟨rfl,
   let ⟨ms, _, h2, h3, _, h5, _⟩ :=
     Record_Marshal_keys sampleRenderers (.txpk fixtureTXPK) (lit "\x7b\"codr\":\"4/6\",\"data\":\"H3P3N2i9qc4yt7rK7ldqoeCVJGBybzPY5h1Dd7P7p8v\",\"datr\":\"SF11BW125\",\"freq\":4650812126120629238,\"imme\":true,\"modu\":\"LORA\",\"powe\":14,\"size\":32\x7d") rfl
   ⟨ms, h2, (h3 ("imme", .bool true) (by decide)).mpr (by simp [absent]),
     (h5 fixtureTXPK rfl).2.1 rfl, (h5 fixtureTXPK rfl).2.2.2 rfl⟩⟩

set_option maxRecDepth 100000 in
/-- C5 (amended) at the envelope of `rawStat` -/
theorem Payload_Marshal_keys_witness :
    Payload.Marshal sampleRenderers ⟨none, some fixtureStat, none⟩ =
      .ok (lit "\x7b\"stat\":\x7b\"ackr\":4636737291354636288,\"alti\":145,\"dwnb\":2,\"lati\":4631704518771049759,\"long\":4614505947334065940,\"rxfw\":2,\"rxnb\":2,\"rxok\":2,\"time\":\"2014-01-12 08:59:28 GMT\",\"txnb\":2\x7d\x7d") ∧
    ∃ ms, lit "\x7b\"stat\":\x7b\"ackr\":4636737291354636288,\"alti\":145,\"dwnb\":2,\"lati\":4631704518771049759,\"long\":4614505947334065940,\"rxfw\":2,\"rxnb\":2,\"rxok\":2,\"time\":\"2014-01-12 08:59:28 GMT\",\"txnb\":2\x7d\x7d" = object ms ∧ keys ms = [lit "stat"] :=
  ⟨rfl,
   let ⟨ms, h1, h2, _⟩ :=
     Payload_Marshal_keys sampleRenderers ⟨none, some fixtureStat, none⟩
       (lit "\x7b\"stat\":\x7b\"ackr\":4636737291354636288,\"alti\":145,\"dwnb\":2,\"lati\":4631704518771049759,\"long\":4614505947334065940,\"rxfw\":2,\"rxnb\":2,\"rxok\":2,\"time\":\"2014-01-12 08:59:28 GMT\",\"txnb\":2\x7d\x7d") rfl
   ⟨ms, h2, (members_keys _ _ h1).trans rfl⟩⟩

set_option maxRecDepth 100000 in
/-- C6 (amended) at the envelope of `rawRXPKs` -/
theorem Payload_Marshal_rxpk_witness :
    [fixtureRXPK1, fixtureRXPK2].map (RXPK.Marshal sampleRenderers) =
      [lit "\x7b\"chan\":2,\"codr\":\"4/6\",\"data\":\"-DS4CGaDCdG+48eJNM3Vai-zDpsR71Pn9CPA9uCON84\",\"datr\":\"SF7BW125\",\"freq\":4650831709355105789,\"lsnr\":4617428107952285286,\"modu\":\"LORA\",\"rssi\":-35,\"size\":32,\"stat\":1,\"time\":\"2013-03-31T16:21:17.528002Z\",\"tmst\":3512348611\x7d",
       lit "\x7b\"chan\":9,\"data\":\"VEVTVF9QQUNLRVRfMTIzNA==\",\"datr\":50000,\"freq\":4650855900264582349,\"modu\":\"FSK\",\"rfch\":1,\"rssi\":-75,\"size\":16,\"stat\":1,\"time\":\"2013-03-31T16:21:17.530974Z\",\"tmst\":3512348514\x7d"].map Except.ok ∧
    Payload.Marshal sampleRenderers fixtureRXPKs =
      .ok (lit "\x7b\"rxpk\":[\x7b\"chan\":2,\"codr\":\"4/6\",\"data\":\"-DS4CGaDCdG+48eJNM3Vai-zDpsR71Pn9CPA9uCON84\",\"datr\":\"SF7BW125\",\"freq\":4650831709355105789,\"lsnr\":4617428107952285286,\"modu\":\"LORA\",\"rssi\":-35,\"size\":32,\"stat\":1,\"time\":\"2013-03-31T16:21:17.528002Z\",\"tmst\":3512348611\x7d,\x7b\"chan\":9,\"data\":\"VEVTVF9QQUNLRVRfMTIzNA==\",\"datr\":50000,\"freq\":4650855900264582349,\"modu\":\"FSK\",\"rfch\":1,\"rssi\":-75,\"size\":16,\"stat\":1,\"time\":\"2013-03-31T16:21:17.530974Z\",\"tmst\":3512348514\x7d]\x7d") :=
  ⟨rfl,
   ((Payload_Marshal_rxpk sampleRenderers [fixtureRXPK1, fixtureRXPK2]
      [lit "\x7b\"chan\":2,\"codr\":\"4/6\",\"data\":\"-DS4CGaDCdG+48eJNM3Vai-zDpsR71Pn9CPA9uCON84\",\"datr\":\"SF7BW125\",\"freq\":4650831709355105789,\"lsnr\":4617428107952285286,\"modu\":\"LORA\",\"rssi\":-35,\"size\":32,\"stat\":1,\"time\":\"2013-03-31T16:21:17.528002Z\",\"tmst\":3512348611\x7d",
       lit "\x7b\"chan\":9,\"data\":\"VEVTVF9QQUNLRVRfMTIzNA==\",\"datr\":50000,\"freq\":4650855900264582349,\"modu\":\"FSK\",\"rfch\":1,\"rssi\":-75,\"size\":16,\"stat\":1,\"time\":\"2013-03-31T16:21:17.530974Z\",\"tmst\":3512348514\x7d"] rfl).1).trans rfl⟩

set_option maxRecDepth 100000 in
/-- C7 (amended) at the second fixture record and the Stat of `main` -/
theorem Payload_Marshal_rxpk_stat_witness :
    Payload.Marshal sampleRenderers ⟨some (some [fixtureRXPK2]), none, none⟩ =
      .ok (lit "\x7b\"rxpk\":[\x7b\"chan\":9,\"data\":\"VEVTVF9QQUNLRVRfMTIzNA==\",\"datr\":50000,\"freq\":4650855900264582349,\"modu\":\"FSK\",\"rfch\":1,\"rssi\":-75,\"size\":16,\"stat\":1,\"time\":\"2013-03-31T16:21:17.530974Z\",\"tmst\":3512348514\x7d]\x7d") ∧
    Payload.Marshal sampleRenderers ⟨none, some fixtureStat, none⟩ =
      .ok (lit "\x7b\"stat\":\x7b\"ackr\":4636737291354636288,\"alti\":145,\"dwnb\":2,\"lati\":4631704518771049759,\"long\":4614505947334065940,\"rxfw\":2,\"rxnb\":2,\"rxok\":2,\"time\":\"2014-01-12 08:59:28 GMT\",\"txnb\":2\x7d\x7d") ∧
    ∃ vr vs, Payload.Marshal sampleRenderers ⟨some (some [fixtureRXPK2]), some fixtureStat, none⟩ =
      .ok (object [(lit "rxpk", vr), (lit "stat", vs)]) :=
  ⟨rfl, rfl,
   let ⟨vr, vs, _, _, h3, _⟩ :=
     Payload_Marshal_rxpk_stat sampleRenderers (some [fixtureRXPK2]) fixtureStat
       (lit "\x7b\"rxpk\":[\x7b\"chan\":9,\"data\":\"VEVTVF9QQUNLRVRfMTIzNA==\",\"datr\":50000,\"freq\":4650855900264582349,\"modu\":\"FSK\",\"rfch\":1,\"rssi\":-75,\"size\":16,\"stat\":1,\"time\":\"2013-03-31T16:21:17.530974Z\",\"tmst\":3512348514\x7d]\x7d")
       (lit "\x7b\"stat\":\x7b\"ackr\":4636737291354636288,\"alti\":145,\"dwnb\":2,\"lati\":4631704518771049759,\"long\":4614505947334065940,\"rxfw\":2,\"rxnb\":2,\"rxok\":2,\"time\":\"2014-01-12 08:59:28 GMT\",\"txnb\":2\x7d\x7d") rfl rfl
   ⟨vr, vs, h3⟩⟩

/-- C8 (amended) at the instant `time1` of `main` -/
theorem mytime_MarshalJSON_RFC3339Nano_witness :
    (time1.offset = 0 ∧ absoluteZeroUnix ≤ time1.unix ∧ time1.unix < 2 ^ 63) ∧
    time1.unix = civilSeconds 2013 3 31 16 21 17 ∧
    mytime.MarshalJSON ⟨RFC3339Nano, time1⟩ = (lit "\"2013-03-31T16:21:17.528002Z\"", none) :=
  ⟨⟨rfl, by decide, by decide⟩,
    (mytime_MarshalJSON_RFC3339Nano time1 rfl (by decide) (by decide)).2.2.1,
    (mytime_MarshalJSON_RFC3339Nano time1 rfl (by decide) (by decide)).2.2.2.2⟩

/-- C9 (amended) at the instant `time3` of `main` -/
theorem mytime_MarshalJSON_GMT_witness :
    (time3.offset = 0 ∧ absoluteZeroUnix ≤ time3.unix ∧ time3.unix < 2 ^ 63) ∧
    time3.unix = civilSeconds 2014 1 12 8 59 28 ∧
    mytime.MarshalJSON ⟨layoutGMT, time3⟩ = (lit "\"2014-01-12 08:59:28 GMT\"", none) :=
  ⟨⟨rfl, by decide, by decide⟩,
    (mytime_MarshalJSON_GMT time3 rfl (by decide) (by decide)).2.1,
    (mytime_MarshalJSON_GMT time3 rfl (by decide) (by decide)).2.2⟩

end Gateway
